import Mathlib

/-!
Verification development for the website-generation backend
(`component_planner` / `component_generator` / `website_combiner` /
`api_keys` and the `create_website` route post-processing).

Texts are modelled as `List Char` (an ASCII model of Python `str`).
Fallible provider calls are modelled as oracle functions supplying, per
attempt, either a result or an error value; errors are modelled by the
`PyError` structure capturing the attributes the code inspects.
`for`-loops with `range` bounds are modelled with an explicit fuel
argument equal to the remaining iteration count, so that every
definition is executable by kernel reduction.
-/

namespace WpVerify

/-! ## Python-style text primitives -/

/-- ASCII model of Python `str.lower` on one character. -/
def lowerChar (c : Char) : Char :=
  if 'A' ≤ c ∧ c ≤ 'Z' then Char.ofNat (c.toNat + 32) else c

/-- Python `s.lower()`. -/
def lowerL (s : List Char) : List Char := s.map lowerChar

/-- Python `needle in hay` (substring test). -/
def containsSub (hay needle : List Char) : Bool :=
  (List.range (hay.length + 1)).any fun i => needle.isPrefixOf (hay.drop i)

/-- Python `hay.find(needle)` restricted to successful search:
index of the first occurrence, if any. -/
def findSub (hay needle : List Char) : Option Nat :=
  (List.range (hay.length + 1)).find? fun i => needle.isPrefixOf (hay.drop i)

/-- The text after the first occurrence of `sep` (second element of
Python `s.split(sep)`, up to the next separator, see `beforeFirst`). -/
def afterFirst (s sep : List Char) : List Char :=
  match findSub s sep with
  | some i => s.drop (i + sep.length)
  | none => []

/-- The text before the first occurrence of `sep` (first element of
Python `s.split(sep)`); the whole text when `sep` does not occur. -/
def beforeFirst (s sep : List Char) : List Char :=
  match findSub s sep with
  | some i => s.take i
  | none => s

/-- Python whitespace for `str.strip`. -/
def isPySpace (c : Char) : Bool :=
  c == ' ' || c == '\t' || c == '\n' || c == '\r' || c == '\x0b' || c == '\x0c'

/-- Python `s.strip()`. -/
def pyStrip (s : List Char) : List Char :=
  ((s.dropWhile isPySpace).reverse.dropWhile isPySpace).reverse

/-- Python `s.replace(old, new)` unfolded with fuel (one unit per retained
or skipped character); `replaceAll` supplies sufficient fuel. -/
def replaceAllGo (old new : List Char) : Nat → List Char → List Char
  | 0, s => s
  | fuel + 1, s =>
    if old.isEmpty then s
    else if old.isPrefixOf s then new ++ replaceAllGo old new fuel (s.drop old.length)
    else
      match s with
      | [] => []
      | c :: rest => c :: replaceAllGo old new fuel rest

/-- Python `s.replace(old, new)`: replace every (non-overlapping,
left-to-right) occurrence of `old` by `new`. -/
def replaceAll (s old new : List Char) : List Char :=
  replaceAllGo old new s.length s

/-- Decimal rendering of a natural number (for Python f-string interpolation). -/
def natChars (n : Nat) : List Char := Nat.toDigits 10 n

/-! ### Basic lemmas about the text primitives -/

theorem containsSub_iff {hay needle : List Char} :
    containsSub hay needle = true ↔ ∃ i, needle <+: hay.drop i := by
  constructor
  · intro h
    rcases List.any_eq_true.mp h with ⟨i, _, hp⟩
    exact ⟨i, List.isPrefixOf_iff_prefix.mp hp⟩
  · rintro ⟨i, hp⟩
    by_cases hi : i ≤ hay.length
    · exact List.any_eq_true.mpr ⟨i, List.mem_range.mpr (Nat.lt_succ_of_le hi),
        List.isPrefixOf_iff_prefix.mpr hp⟩
    · have : hay.drop i = [] := List.drop_eq_nil_of_le (Nat.le_of_not_le hi)
      rw [this] at hp
      have : needle = [] := List.prefix_nil.mp hp
      subst this
      exact List.any_eq_true.mpr ⟨0, List.mem_range.mpr (Nat.succ_pos _),
        List.isPrefixOf_iff_prefix.mpr List.nil_prefix⟩

theorem containsSub_of_start {hay needle : List Char} (h : needle <+: hay) :
    containsSub hay needle = true :=
  containsSub_iff.mpr ⟨0, by simpa using h⟩

theorem containsSub_append_left {t needle : List Char} (u : List Char)
    (h : containsSub t needle = true) : containsSub (u ++ t) needle = true := by
  rcases containsSub_iff.mp h with ⟨i, hp⟩
  refine containsSub_iff.mpr ⟨u.length + i, ?_⟩
  rwa [List.drop_append_eq_append_drop, List.drop_eq_nil_of_le (Nat.le_add_right _ _),
    List.nil_append, Nat.add_sub_cancel_left]

theorem containsSub_cons {t needle : List Char} (c : Char)
    (h : containsSub t needle = true) : containsSub (c :: t) needle = true := by
  simpa using containsSub_append_left [c] h

theorem lowerL_append (a b : List Char) : lowerL (a ++ b) = lowerL a ++ lowerL b := by
  simp [lowerL]

theorem lowerL_drop (s : List Char) (n : Nat) : lowerL (s.drop n) = (lowerL s).drop n := by
  simp [lowerL, List.map_drop]

theorem lowerL_length (s : List Char) : (lowerL s).length = s.length := by
  simp [lowerL]

theorem lowerL_reverse (s : List Char) : lowerL s.reverse = (lowerL s).reverse := by
  simp [lowerL]

theorem lowerL_cons (c : Char) (s : List Char) :
    lowerL (c :: s) = lowerChar c :: lowerL s := by
  simp [lowerL]

theorem containsSub_infix_iff {hay needle : List Char} :
    containsSub hay needle = true ↔ needle <:+: hay := by
  rw [containsSub_iff]
  constructor
  · rintro ⟨i, hp⟩
    exact hp.isInfix.trans (List.drop_suffix i hay).isInfix
  · rintro ⟨u, v, huv⟩
    refine ⟨u.length, ?_⟩
    rw [← huv, List.append_assoc, List.drop_left]
    exact ⟨v, rfl⟩

theorem containsSub_nil_pattern (hay : List Char) : containsSub hay [] = true :=
  containsSub_of_start List.nil_prefix

/-! ### Occurrence-preservation lemmas for `replaceAll`, `dropWhile`, `pyStrip`

These drive the structural-marker guarantees of the combiner/route stage:
the injected tag patterns all begin with the character `<`, which lets us
show that case-insensitive occurrences of a concrete marker survive the
text surgery the code performs. -/

theorem lowerChar_lt : lowerChar '<' = '<' := by decide

theorem replaceAllGo_prefix_stable (old new : List Char)
    (hold : old.head? = some '<') :
    ∀ (fuel : Nat) (q s : List Char), '<' ∉ q → q <+: lowerL s →
      q <+: lowerL (replaceAllGo old new fuel s) := by
  intro fuel
  induction fuel with
  | zero => intro q s _ h; simpa [replaceAllGo] using h
  | succ fuel ih =>
    intro q s hq hpre
    have hoe : old.isEmpty = false := by
      cases old with
      | nil => simp at hold
      | cons a t => rfl
    by_cases hps : old.isPrefixOf s = true
    · -- `s` starts with `old`, hence with `<`; `q` holds no `<`, so `q = []`.
      cases q with
      | nil => exact List.nil_prefix
      | cons a q' =>
        exfalso
        have hop : old <+: s := List.isPrefixOf_iff_prefix.mp hps
        rcases hop with ⟨t, ht⟩
        cases old with
        | nil => simp at hold
        | cons o or =>
          have ho : o = '<' := by simpa using hold
          have hs : s = '<' :: (or ++ t) := by
            rw [← ht, ho]; rfl
          rw [hs] at hpre
          rcases hpre with ⟨t', ht'⟩
          have ha : a = '<' := by
            have h2 := congrArg List.head? ht'
            simp [lowerL_cons, lowerChar_lt] at h2
            exact h2
          exact hq (ha ▸ List.mem_cons_self a q')
    · cases s with
      | nil =>
        have hresult : replaceAllGo old new (fuel + 1) [] = [] := by
          simp [replaceAllGo, hoe, hps]
        rw [hresult]
        exact hpre
      | cons c rest =>
        have hresult : replaceAllGo old new (fuel + 1) (c :: rest)
            = c :: replaceAllGo old new fuel rest := by
          simp [replaceAllGo, hoe, hps]
        rw [hresult]
        cases q with
        | nil => exact List.nil_prefix
        | cons a q' =>
          rw [lowerL_cons] at hpre ⊢
          rcases List.cons_prefix_iff.mp hpre with ⟨hac, hq'⟩
          have hq'mem : '<' ∉ q' := fun h => hq (List.mem_cons_of_mem _ h)
          exact List.cons_prefix_iff.mpr ⟨hac, ih q' rest hq'mem hq'⟩

theorem replaceAllGo_contains_stable (old new p : List Char)
    (hOldHead : old.head? = some '<')
    (hOldTail : '<' ∉ (lowerL old).drop 1)
    (hpHead : p.head? = some '<')
    (hpTail : '<' ∉ p.drop 1)
    (hNoExt : ¬ lowerL old <+: p)
    (hSurv : p <+: lowerL old → p <+: lowerL new) :
    ∀ (fuel : Nat) (s : List Char), containsSub (lowerL s) p = true →
      containsSub (lowerL (replaceAllGo old new fuel s)) p = true := by
  intro fuel
  induction fuel with
  | zero => intro s h; simpa [replaceAllGo] using h
  | succ fuel ih =>
    intro s hcont
    have hoe : old.isEmpty = false := by
      cases old with
      | nil => simp at hOldHead
      | cons a t => rfl
    have hpne : p ≠ [] := by
      intro h; rw [h] at hpHead; simp at hpHead
    have hphd : p.head? = some '<' := hpHead
    by_cases hps : old.isPrefixOf s = true
    · -- a literal occurrence of `old` is replaced by `new` here
      rcases List.isPrefixOf_iff_prefix.mp hps with ⟨t, ht⟩
      have hresult : replaceAllGo old new (fuel + 1) s
          = new ++ replaceAllGo old new fuel t := by
        have hdrop : s.drop old.length = t := by rw [← ht, List.drop_left]
        simp [replaceAllGo, hoe, hps, hdrop]
      rw [hresult, lowerL_append]
      rcases containsSub_iff.mp hcont with ⟨i, hp⟩
      rw [← ht, lowerL_append] at hp
      set k := (lowerL old).length with hk
      by_cases hik : k ≤ i
      · -- occurrence entirely inside `t`
        have hdrop2 : (lowerL old ++ lowerL t).drop i = (lowerL t).drop (i - k) := by
          rw [List.drop_append_eq_append_drop, List.drop_eq_nil_of_le (by omega),
            List.nil_append]
        rw [hdrop2] at hp
        have hrec := ih t (containsSub_iff.mpr ⟨i - k, hp⟩)
        exact containsSub_append_left _ hrec
      · -- occurrence starts inside `old`
        push_neg at hik
        have hdrop2 : (lowerL old ++ lowerL t).drop i = (lowerL old).drop i ++ lowerL t := by
          rw [List.drop_append_eq_append_drop, Nat.sub_eq_zero_of_le (by omega),
            List.drop_zero]
        rw [hdrop2] at hp
        rcases Nat.eq_zero_or_pos i with hi0 | hipos
        · subst hi0
          rw [List.drop_zero] at hp
          by_cases hlen : p.length ≤ k
          · have hpold : p <+: lowerL old :=
              List.prefix_of_prefix_length_le hp (List.prefix_append _ _) (by omega)
            have hpnew := hSurv hpold
            exact containsSub_of_start (hpnew.trans (List.prefix_append _ _))
          · exfalso
            exact hNoExt (List.prefix_of_prefix_length_le (List.prefix_append _ _) hp
              (by omega))
        · exfalso
          -- the occurrence head `<` would sit in the tail of `old`
          have hne : (lowerL old).drop i ≠ [] := by
            intro h
            have h3 := congrArg List.length h
            simp at h3
            omega
          rcases hp with ⟨t', ht'⟩
          have h2 := congrArg List.head? ht'
          rw [List.head?_append, List.head?_append, hphd] at h2
          rcases hc : ((lowerL old).drop i).head? with _ | b
          · exact hne (List.head?_eq_none_iff.mp hc)
          · rw [hc] at h2
            have hb : b = '<' := by
              simpa [Option.or] using h2.symm
            have hidx : (lowerL old)[i]? = some '<' := by
              rw [← List.head?_drop, hc, hb]
            have hidx2 : ((lowerL old).drop 1)[i - 1]? = some '<' := by
              rw [List.getElem?_drop]
              have harith : 1 + (i - 1) = i := by omega
              rw [harith]
              exact hidx
            exact hOldTail (List.getElem?_mem hidx2)
    · cases s with
      | nil =>
        exfalso
        rcases containsSub_iff.mp hcont with ⟨i, hp⟩
        exact hpne (List.prefix_nil.mp (by simpa [lowerL] using hp))
      | cons c rest =>
        have hresult : replaceAllGo old new (fuel + 1) (c :: rest)
            = c :: replaceAllGo old new fuel rest := by
          simp [replaceAllGo, hoe, hps]
        rw [hresult, lowerL_cons]
        rcases containsSub_iff.mp hcont with ⟨i, hp⟩
        cases i with
        | zero =>
          rw [List.drop_zero, lowerL_cons] at hp
          rcases hp_p : p with _ | ⟨phd, ptl⟩
          · exact absurd hp_p hpne
          subst hp_p
          rcases List.cons_prefix_iff.mp hp with ⟨hhd, htl⟩
          have hptlmem : '<' ∉ ptl := by simpa using hpTail
          have hstable := replaceAllGo_prefix_stable old new hOldHead fuel ptl rest
            hptlmem htl
          exact containsSub_of_start (List.cons_prefix_iff.mpr ⟨hhd, hstable⟩)
        | succ i =>
          rw [lowerL_cons] at hp
          have hp' : p <+: (lowerL rest).drop i := by simpa using hp
          have hrec := ih rest (containsSub_iff.mpr ⟨i, hp'⟩)
          exact containsSub_cons (lowerChar c) hrec

theorem replaceAll_contains_stable {old new p s : List Char}
    (hOldHead : old.head? = some '<')
    (hOldTail : '<' ∉ (lowerL old).drop 1)
    (hpHead : p.head? = some '<')
    (hpTail : '<' ∉ p.drop 1)
    (hNoExt : ¬ lowerL old <+: p)
    (hSurv : p <+: lowerL old → p <+: lowerL new)
    (h : containsSub (lowerL s) p = true) :
    containsSub (lowerL (replaceAll s old new)) p = true :=
  replaceAllGo_contains_stable old new p hOldHead hOldTail hpHead hpTail hNoExt hSurv
    s.length s h

theorem lowerChar_of_space {c : Char} (hc : isPySpace c = true) : lowerChar c = c := by
  simp only [isPySpace, Bool.or_eq_true, beq_iff_eq] at hc
  rcases hc with ((((h | h) | h) | h) | h) | h <;> subst h <;> decide

theorem isPySpace_lowerChar_of_space {c : Char} (hc : isPySpace c = true) :
    isPySpace (lowerChar c) = true := by
  rw [lowerChar_of_space hc]; exact hc

theorem containsSub_dropWhile_space (p : List Char)
    (hph : ∀ a, p.head? = some a → isPySpace a = false) :
    ∀ s : List Char, containsSub (lowerL s) p = true →
      containsSub (lowerL (s.dropWhile isPySpace)) p = true := by
  intro s
  induction s with
  | nil => intro h; simpa using h
  | cons c rest ih =>
    intro h
    by_cases hc : isPySpace c = true
    · rw [List.dropWhile_cons, if_pos hc]
      apply ih
      rcases containsSub_iff.mp h with ⟨i, hp⟩
      cases i with
      | zero =>
        rw [List.drop_zero, lowerL_cons] at hp
        cases p with
        | nil => exact containsSub_nil_pattern _
        | cons a q =>
          rcases List.cons_prefix_iff.mp hp with ⟨ha, _⟩
          have : isPySpace a = true := by
            rw [ha, lowerChar_of_space hc]; exact hc
          have := hph a rfl
          simp_all
      | succ i =>
        rw [lowerL_cons] at hp
        exact containsSub_iff.mpr ⟨i, by simpa using hp⟩
    · rw [List.dropWhile_cons, if_neg hc]
      exact h

theorem containsSub_reverse {hay needle : List Char} :
    containsSub hay.reverse needle.reverse = containsSub hay needle := by
  rcases h : containsSub hay needle with _ | _
  · rcases h2 : containsSub hay.reverse needle.reverse with _ | _
    · rfl
    · exfalso
      have hinf := containsSub_infix_iff.mp h2
      rw [List.reverse_infix] at hinf
      have h3 := containsSub_infix_iff.mpr hinf
      rw [h] at h3
      exact absurd h3 Bool.false_ne_true
  · exact containsSub_infix_iff.mpr (List.reverse_infix.mpr (containsSub_infix_iff.mp h))

theorem containsSub_pyStrip (p : List Char)
    (hph : ∀ a, p.head? = some a → isPySpace a = false)
    (hpl : ∀ a, p.getLast? = some a → isPySpace a = false)
    (s : List Char) (h : containsSub (lowerL s) p = true) :
    containsSub (lowerL (pyStrip s)) p = true := by
  unfold pyStrip
  have step1 := containsSub_dropWhile_space p hph s h
  set t := s.dropWhile isPySpace with hts
  have hrev : containsSub (lowerL t.reverse) p.reverse = true := by
    rw [lowerL_reverse, containsSub_reverse]
    exact step1
  have hph' : ∀ a, p.reverse.head? = some a → isPySpace a = false := by
    intro a ha
    rw [← List.getLast?_eq_head?_reverse] at ha
    exact hpl a ha
  have step2 := containsSub_dropWhile_space p.reverse hph' t.reverse hrev
  set u := t.reverse.dropWhile isPySpace with hus
  have : containsSub (lowerL u.reverse) p.reverse.reverse = true := by
    rw [lowerL_reverse, containsSub_reverse]
    exact step2
  simpa using this

/-! ## `utils/api_keys.py`: error model, rate-limit classifiers, key pools -/

/-- One entry of Python `error.args`: its `str()` text and, when the
argument is a dict holding an `error` sub-dict, that sub-dict's
`code` and `message` fields. -/
structure PyArg where
  text : List Char
  nested : Option (Option Nat × List Char)
deriving DecidableEq

/-- The attributes of a Python exception object that the classifiers
inspect: `str(error)`, `type(error).__name__`, optional `status_code`,
`status`, `response.status_code` fields, `error.args`, and an optional
`message` attribute. -/
structure PyError where
  text : List Char
  typeName : List Char
  statusCode : Option Nat
  status : Option Nat
  responseStatus : Option Nat
  args : List PyArg
  message : Option (List Char)
deriving DecidableEq

/-- A plain `Exception(text)` (only `str(error)` carries information). -/
def excOfText (s : List Char) : PyError :=
  ⟨s, "Exception".data, none, none, none, [], none⟩

/-- The per-`arg` check of `OpenAIKeyManager.is_rate_limit_error`
(`api_keys.py` lines 98-110). -/
def openAIArgHit (arg : PyArg) : Bool :=
  containsSub arg.text ("429".data)
  || containsSub (lowerL arg.text) ("rate limit".data)
  || containsSub (lowerL arg.text) ("quota".data)
  || (match arg.nested with
      | some (code, msg) => code == some 429 || containsSub (lowerL msg) ("rate limit".data)
      | none => false)

/-- The `error.message` check of `OpenAIKeyManager.is_rate_limit_error`
(`api_keys.py` lines 113-116). -/
def openAIMessageHit (e : PyError) : Bool :=
  match e.message with
  | some m => containsSub m ("429".data) || containsSub (lowerL m) ("rate limit".data)
  | none => false

/-- `OpenAIKeyManager.is_rate_limit_error` (`api_keys.py` lines 76-118),
with the checks in the source's order. -/
def openAIIsRateLimitError (e : PyError) : Bool :=
  if containsSub e.text ("429".data) then true
  else if containsSub (lowerL e.text) ("rate limit exceeded".data)
      || containsSub (lowerL e.typeName) ("openai_ratelimit_error".data) then true
  else if e.statusCode == some 429 then true
  else if e.status == some 429 then true
  else if e.args.any openAIArgHit then true
  else if openAIMessageHit e then true
  else false

/-- `OpenRouterKeyManager.is_rate_limit_error` (`api_keys.py` lines 304-321),
with the checks in the source's order. -/
def openRouterIsRateLimitError (e : PyError) : Bool :=
  if containsSub (lowerL e.text) ("429 client error".data)
      || containsSub (lowerL e.text) ("rate limit exceeded".data) then true
  else if e.responseStatus == some 429 then true
  else if containsSub (lowerL e.text) ("x-ratelimit-remaining".data)
      || containsSub (lowerL e.text) ("openrouter_ratelimit".data) then true
  else false

/-- Modelled from the spec: the same OpenAI classification checks
re-stated in the spec's inspection order (claim C8) — explicit numeric
status-code fields first, then textual status markers in the string
representation, then provider vocabulary in nested payload structures. -/
def openAISpecOrderClassifier (e : PyError) : Bool :=
  (e.statusCode == some 429 || e.status == some 429)
  || (containsSub e.text ("429".data)
      || containsSub (lowerL e.text) ("rate limit exceeded".data)
      || containsSub (lowerL e.typeName) ("openai_ratelimit_error".data))
  || (e.args.any openAIArgHit || openAIMessageHit e)

/-- Modelled from the spec: the OpenRouter classification checks in the
spec's inspection order (claim C8). -/
def openRouterSpecOrderClassifier (e : PyError) : Bool :=
  (e.responseStatus == some 429)
  || (containsSub (lowerL e.text) ("429 client error".data)
      || containsSub (lowerL e.text) ("rate limit exceeded".data))
  || (containsSub (lowerL e.text) ("x-ratelimit-remaining".data)
      || containsSub (lowerL e.text) ("openrouter_ratelimit".data))

/-- A provider key pool: its loaded key count and current cursor
(`self.keys` / `self.current_key_index`). The concrete key strings are
irrelevant to the modelled control flow. -/
structure KeyPool where
  size : Nat
  cursor : Nat
deriving DecidableEq

/-- `has_multiple_keys` (`api_keys.py` line 300-302). -/
def hasMultipleKeys (p : KeyPool) : Bool := decide (1 < p.size)

/-- `rotate_key` (`api_keys.py` lines 290-298): returns `False` and
leaves the pool untouched for a pool of size `≤ 1`, otherwise advances
the cursor by one modulo the pool size and returns `True`. -/
def rotateKey (p : KeyPool) : Bool × KeyPool :=
  if p.size ≤ 1 then (false, p)
  else (true, ⟨p.size, (p.cursor + 1) % p.size⟩)

/-- `max_retries = len(all_keys) if all_keys else 1` -/
def maxRetriesOf (size : Nat) : Nat := if size = 0 then 1 else size

/-! ## `utils/component_planner.py`: component descriptors, plan validation,
retry loop, deterministic fallback plan -/

/-- One component descriptor dict (the fields the modelled code reads;
`none` models an absent key). -/
structure Component where
  name : Option (List Char)
  purpose : Option (List Char)
  order : Option Nat
  needsImage : Bool
  imagePrompt : Option (List Char)
  imageDimensions : Option (List Char)
  imageAspectRatio : Option (List Char)
  imageUsage : Option (List Char)
  designStyle : Option (List Char)
  layoutType : Option (List Char)
  visualFeatures : Option (List Char)
deriving DecidableEq

/-- Component with only the base keys set (name, purpose, order, needs_image). -/
def baseComp (n p : List Char) (ord : Nat) (img : Bool) : Component :=
  { name := some n, purpose := some p, order := some ord, needsImage := img,
    imagePrompt := none, imageDimensions := none, imageAspectRatio := none,
    imageUsage := none, designStyle := none, layoutType := none, visualFeatures := none }

/-- The structured data parsed from a provider planning response
(the keys `plan_website_components` reads; JSON-text parsing itself is
abstracted: a parse failure is delivered as a raised exception by the
call oracle, as the code's `except Exception` treats it). -/
structure PlanData where
  allComponents : Option (List Component)
  notes : Option (List Char)
deriving DecidableEq

/-- The `hero_image` entry of `image_plan`. -/
structure HeroImagePlan where
  purpose : List Char
  prompt : List Char
  dimensions : List Char
  aspectRatio : List Char
deriving DecidableEq

/-- The dict returned by `plan_website_components` / `get_fallback_plan`. -/
structure PlanResult where
  allComponents : List Component
  dynamicComponents : List Component
  imagePlan : Option HeroImagePlan
  componentOrder : Option (List Nat)
  notes : Option (List Char)
deriving DecidableEq

/-- The business-profile form fields read by the modelled code. -/
structure FormData where
  siteName : Option (List Char)
  businessCategory : Option (List Char)
  businessSubCategory : Option (List Char)
  aboutBusiness : Option (List Char)
  services : Option (List Char)
  themeColor : Option (List Char)
  fontName : Option (List Char)
deriving DecidableEq

/-- `c.get('order', 0) in [3, 4, 5, 6]` (`component_planner.py` line 293). -/
def orderIn3456 (c : Component) : Bool := ([3, 4, 5, 6] : List Nat).contains (c.order.getD 0)

/-- The `image_plan` build loop (`component_planner.py` lines 299-309):
the last Hero component with `needs_image` wins. -/
def buildImagePlan (comps : List Component) : Option HeroImagePlan :=
  comps.foldl
    (fun acc c =>
      if c.needsImage then
        if c.name.getD [] == "Hero".data then
          some { purpose := "Hero section banner".data
                 prompt := c.imagePrompt.getD []
                 dimensions := c.imageDimensions.getD ("1920x600".data)
                 aspectRatio := c.imageAspectRatio.getD ("16:5".data) }
        else acc
      else acc)
    none

/-- Structure validation and result assembly performed inside the `try`
body once a response parses (`component_planner.py` lines 285-317);
validation failures are raised and caught by the loop's generic handler. -/
def validateBuild (pd : PlanData) : Except PyError PlanResult :=
  match pd.allComponents with
  | none => .error (excOfText ("Invalid plan: missing all_components".data))
  | some comps =>
    if comps.length ≠ 8 then
      .error (excOfText ("Invalid plan: expected 8 components, got ".data
        ++ natChars comps.length))
    else
      .ok { allComponents := comps
            dynamicComponents := comps.filter orderIn3456
            imagePlan := buildImagePlan comps
            componentOrder := none
            notes := pd.notes }

/-- One provider call outcome, as the retry loops distinguish them:
success, a `requests.exceptions.HTTPError`, or any other exception
(parse errors, empty-response errors, …). -/
inductive ProviderCall (α : Type) where
  | ok (a : α)
  | httpError (e : PyError)
  | exc (e : PyError)
deriving DecidableEq

deriving instance DecidableEq for Except

/-- Result of a retry loop: outcome, number of action calls made, and
the key pool state afterwards. -/
structure LoopResult (α : Type) where
  outcome : Except PyError α
  attempts : Nat
  pool : KeyPool
deriving DecidableEq

def planFailAfterText (maxRetries : Nat) (e : PyError) : PyError :=
  excOfText ("Failed to plan website components after ".data ++ natChars maxRetries
    ++ " attempts: ".data ++ e.text)

def planFailNowText (e : PyError) : PyError :=
  excOfText ("Failed to plan website components: ".data ++ e.text)

def allPlanningFailed : PyError := excOfText ("All planning attempts failed".data)

/-- The planning retry loop (`component_planner.py` lines 241-352),
unfolded with fuel equal to the remaining `range(max_retries)`
iterations (`attempt + fuel = max_retries` at each entry; fuel `0` is
the post-loop `raise Exception("All planning attempts failed")`). -/
def plannerGo (oracle : Nat → ProviderCall PlanData) (maxRetries : Nat) :
    Nat → KeyPool → Nat → LoopResult PlanResult
  | attempt, pool, 0 => ⟨.error allPlanningFailed, attempt, pool⟩
  | attempt, pool, fuel + 1 =>
    match oracle attempt with
    | .ok pd =>
      match validateBuild pd with
      | .ok r => ⟨.ok r, attempt + 1, pool⟩
      | .error e =>
        -- raised inside the `try`, caught by `except Exception`
        if openRouterIsRateLimitError e && hasMultipleKeys pool
            && decide (attempt < maxRetries - 1) then
          plannerGo oracle maxRetries (attempt + 1) (rotateKey pool).2 fuel
        else if decide (attempt < maxRetries - 1) then
          plannerGo oracle maxRetries (attempt + 1)
            (if hasMultipleKeys pool then (rotateKey pool).2 else pool) fuel
        else ⟨.error e, attempt + 1, pool⟩
    | .httpError e =>
      if openRouterIsRateLimitError e && hasMultipleKeys pool && (rotateKey pool).1 then
        plannerGo oracle maxRetries (attempt + 1) (rotateKey pool).2 fuel
      else if attempt == maxRetries - 1 then
        ⟨.error (planFailAfterText maxRetries e), attempt + 1, pool⟩
      else
        ⟨.error (planFailNowText e), attempt + 1, pool⟩
    | .exc e =>
      if openRouterIsRateLimitError e && hasMultipleKeys pool
          && decide (attempt < maxRetries - 1) then
        plannerGo oracle maxRetries (attempt + 1) (rotateKey pool).2 fuel
      else if decide (attempt < maxRetries - 1) then
        plannerGo oracle maxRetries (attempt + 1)
          (if hasMultipleKeys pool then (rotateKey pool).2 else pool) fuel
      else ⟨.error e, attempt + 1, pool⟩

/-- Entry point of the planning retry loop. -/
def plannerLoop (oracle : Nat → ProviderCall PlanData) (pool : KeyPool) :
    LoopResult PlanResult :=
  plannerGo oracle (maxRetriesOf pool.size) 0 pool (maxRetriesOf pool.size)

/-- `get_fallback_plan` (`component_planner.py` lines 364-464): a pure
function of the business profile. -/
def getFallbackPlan (form : FormData) : PlanResult :=
  let business_category := form.businessCategory.getD ("Business".data)
  let business_sub_category := form.businessSubCategory.getD ("Services".data)
  let theme_color := form.themeColor.getD ("#4f46e5".data)
  let allComponents : List Component :=
    [ { baseComp ("Navigation".data) ("Navigation bar with logo and menu links".data) 1 false
        with designStyle := some ("Modern sticky navigation".data) },
      { baseComp ("Hero".data) ("Hero section with banner".data) 2 true with
        imagePrompt := some ("Professional rectangular hero banner (1920x600) for ".data
          ++ business_category ++ " - ".data ++ business_sub_category
          ++ " industry. Modern, sleek, professional quality with theme color ".data
          ++ theme_color ++ ".".data)
        imageDimensions := some ("1920x600".data)
        imageAspectRatio := some ("16:5".data)
        imageUsage := some ("Full-width hero banner".data)
        designStyle := some ("Modern hero with gradient overlay".data) },
      { baseComp ("Services".data) ("Showcase business services".data) 3 true with
        imagePrompt := some ("Professional business image (1200x800) for ".data
          ++ business_category ++ " - ".data ++ business_sub_category
          ++ " services. Modern, business-appropriate, theme color ".data
          ++ theme_color ++ ".".data)
        imageDimensions := some ("1200x800".data)
        imageAspectRatio := some ("3:2".data)
        imageUsage := some ("Side image or background".data)
        designStyle := some ("Card-based layout".data)
        layoutType := some ("Grid layout".data)
        visualFeatures := some ("Rounded corners, shadows".data) },
      { baseComp ("About".data) ("About the business".data) 4 false with
        designStyle := some ("Split-screen layout".data)
        layoutType := some ("Two-column".data)
        visualFeatures := some ("Clean typography".data) },
      { baseComp ("Features".data) ("Key features or benefits".data) 5 true with
        imagePrompt := some ("Professional feature image (800x600) for ".data
          ++ business_category ++ " - ".data ++ business_sub_category
          ++ ". Modern, illustrative, theme color ".data ++ theme_color ++ ".".data)
        imageDimensions := some ("800x600".data)
        imageAspectRatio := some ("4:3".data)
        imageUsage := some ("Feature illustration".data)
        designStyle := some ("Glassmorphism".data)
        layoutType := some ("Three-column grid".data)
        visualFeatures := some ("Glass effect, blur".data) },
      { baseComp ("Testimonials".data) ("Customer testimonials".data) 6 false with
        designStyle := some ("Carousel layout".data)
        layoutType := some ("Centered cards".data)
        visualFeatures := some ("Quotes, avatars".data) },
      { baseComp ("Contact".data) ("Contact form with mailto".data) 7 false with
        designStyle := some ("Modern form design".data) },
      { baseComp ("Footer".data) ("Footer with social links".data) 8 false with
        designStyle := some ("Dark footer".data) } ]
  { allComponents := allComponents
    dynamicComponents := allComponents.filter orderIn3456
    imagePlan := some
      { purpose := "Hero section banner".data
        prompt := "Professional rectangular hero image for ".data ++ business_category
          ++ " - ".data ++ business_sub_category ++ " industry".data
        dimensions := "1920x600".data
        aspectRatio := "16:5".data }
    componentOrder := some [1, 2, 3, 4, 5, 6, 7, 8]
    notes := some ("Fallback plan for ".data ++ business_category ++ " - ".data
      ++ business_sub_category) }

/-- `plan_website_components` (`component_planner.py` lines 213-361):
a missing OpenRouter key (empty pool) raises inside the outer `try`; any
failure escaping the retry loop is caught by the outer handlers, both of
which return `get_fallback_plan(form_data)`. -/
def planWebsiteComponents (oracle : Nat → ProviderCall PlanData) (pool : KeyPool)
    (form : FormData) : PlanResult :=
  if pool.size = 0 then getFallbackPlan form
  else
    match (plannerLoop oracle pool).outcome with
    | .ok r => r
    | .error _ => getFallbackPlan form

/-- Modelled from the spec (claim C3's property): exactly 8 descriptors,
orders a permutation of `1..8`, slots 1/2/7/8 named
Navigation/Hero/Contact/Footer, and `needs_image` true on slot 2 and
false on slots 1, 7, 8. -/
def claimedPlanShape (comps : List Component) : Bool :=
  comps.length == 8
  && (List.range 8).all (fun k =>
      (comps.filter (fun c => c.order.getD 0 == k + 1)).length == 1)
  && comps.all (fun c =>
      (c.order.getD 0 != 1 || (c.name.getD [] == "Navigation".data && !c.needsImage))
      && (c.order.getD 0 != 2 || (c.name.getD [] == "Hero".data && c.needsImage))
      && (c.order.getD 0 != 7 || (c.name.getD [] == "Contact".data && !c.needsImage))
      && (c.order.getD 0 != 8 || (c.name.getD [] == "Footer".data && !c.needsImage)))

/-! ## Shared response post-processing (code-fence stripping) -/

/-- Markdown code-fence cleanup applied to stripped response text
(`component_generator.py` lines 256-259, `website_combiner.py` lines
120-123): `s.split('```html')[1].split('```')[0].strip()` when an
html fence is present, else the plain-fence variant, else unchanged. -/
def cleanCodeBlock (s : List Char) : List Char :=
  if containsSub s ("```html".data) then
    pyStrip (beforeFirst (afterFirst s ("```html".data)) ("```".data))
  else if containsSub s ("```".data) then
    pyStrip (beforeFirst (afterFirst s ("```".data)) ("```".data))
  else s

/-! ## `utils/component_generator.py`: on-demand image generation,
per-component markup generation, the whole-pipeline loop -/

/-- `_is_permission_error` (`component_generator.py` lines 146-162);
for dict and non-dict args the inspected text is `str(arg)` either way. -/
def isPermissionError (e : PyError) : Bool :=
  if containsSub (lowerL e.text) ("permission".data)
      || containsSub (lowerL e.text) ("permission_denied".data) then true
  else if containsSub (lowerL e.text) ("403".data) then true
  else e.args.any (fun arg =>
    containsSub (lowerL arg.text) ("permission".data)
    || containsSub (lowerL arg.text) ("403".data))

/-- One DALL-E image attempt outcome: a generated-and-downloaded image,
a response without image data (the loop just moves on), or an exception. -/
inductive ImgCall where
  | ok (dalleUrl : List Char)
  | noData
  | exc (e : PyError)
deriving DecidableEq

/-- `comp_name.lower().replace(' ', '_').replace('-', '_')`. -/
def compSlug (n : List Char) : List Char :=
  (lowerL n).map fun c => if c == ' ' || c == '-' then '_' else c

/-- The locally saved path `/static/generated/{slug}_{timestamp}.png`. -/
def localImagePath (n ts : List Char) : List Char :=
  "/static/generated/".data ++ compSlug n ++ "_".data ++ ts ++ ".png".data

def heroFallbackPath : List Char := "/static/generated/hero_20251105_142354_0.png".data

def additionalFallbackPath : List Char :=
  "/static/generated/additional_20251106_160031_2.png".data

/-- The post-exhaustion fallback choice (`component_generator.py`
lines 127-132). -/
def fallbackImageFor (n : List Char) : List Char :=
  if n == "Hero".data then heroFallbackPath else additionalFallbackPath

/-- Result of `generate_image_for_component`: returned path (or `None`),
number of provider calls made, OpenAI pool state afterwards. -/
structure ImgGenResult where
  url : Option (List Char)
  calls : Nat
  pool : KeyPool
deriving DecidableEq

/-- The image retry loop (`component_generator.py` lines 68-132) with
fuel as remaining iterations; both normal loop exhaustion and the
`break` path fall through to the fixed fallback paths. -/
def genImageGo (oracle : Nat → ImgCall) (compName ts : List Char) (maxRetries : Nat) :
    Nat → KeyPool → Nat → ImgGenResult
  | attempt, pool, 0 => ⟨some (fallbackImageFor compName), attempt, pool⟩
  | attempt, pool, fuel + 1 =>
    match oracle attempt with
    | .ok _dalleUrl => ⟨some (localImagePath compName ts), attempt + 1, pool⟩
    | .noData => genImageGo oracle compName ts maxRetries (attempt + 1) pool fuel
    | .exc e =>
      if openAIIsRateLimitError e && hasMultipleKeys pool
          && decide (attempt < maxRetries - 1) then
        genImageGo oracle compName ts maxRetries (attempt + 1) (rotateKey pool).2 fuel
      else if hasMultipleKeys pool && decide (attempt < maxRetries - 1) then
        genImageGo oracle compName ts maxRetries (attempt + 1) (rotateKey pool).2 fuel
      else ⟨some (fallbackImageFor compName), attempt + 1, pool⟩

/-- `generate_image_for_component` (`component_generator.py` lines
25-143): an empty or missing `image_prompt` returns `None` before any
provider call; otherwise the retry loop runs and exhaustion substitutes
the fixed fallback path for the component's role. -/
def generateImageForComponent (oracle : Nat → ImgCall) (comp : Component)
    (ts : List Char) (pool : KeyPool) : ImgGenResult :=
  let compName := comp.name.getD ("component".data)
  let imagePrompt := comp.imagePrompt.getD []
  if imagePrompt.isEmpty then ⟨none, 0, pool⟩
  else genImageGo oracle compName ts (maxRetriesOf pool.size) 0 pool (maxRetriesOf pool.size)

/-- One text-generation attempt outcome inside `generate_component`:
response content, an empty/shape-less response (`continue` with
`last_error` set), an HTTP error, or another exception. -/
inductive GenCompCall where
  | ok (content : List Char)
  | empty
  | httpError (e : PyError)
  | exc (e : PyError)
deriving DecidableEq

def genCompFailAfter (maxRetries : Nat) (e : PyError) : PyError :=
  excOfText ("Failed to generate component after ".data ++ natChars maxRetries
    ++ " attempts: ".data ++ e.text)

def genCompFailNow (e : PyError) : PyError :=
  excOfText ("Failed to generate component: ".data ++ e.text)

/-- The markup retry loop of `generate_component`
(`component_generator.py` lines 219-311); the `Bool` component carries
`use_bootstrap_docs`, cleared by the permission-error branch. An `.ok
none` outcome means the loop exhausted without a `return` or `raise`. -/
def genCompGo (oracle : Nat → GenCompCall) (maxRetries : Nat) :
    Nat → KeyPool → Bool → Nat → LoopResult (Option (List Char)) × Bool
  | attempt, pool, useBootstrap, 0 => (⟨.ok none, attempt, pool⟩, useBootstrap)
  | attempt, pool, useBootstrap, fuel + 1 =>
    match oracle attempt with
    | .ok content =>
      (⟨.ok (some (cleanCodeBlock (pyStrip content))), attempt + 1, pool⟩, useBootstrap)
    | .empty => genCompGo oracle maxRetries (attempt + 1) pool useBootstrap fuel
    | .httpError e =>
      if openRouterIsRateLimitError e && hasMultipleKeys pool && (rotateKey pool).1 then
        genCompGo oracle maxRetries (attempt + 1) (rotateKey pool).2 useBootstrap fuel
      else if attempt == maxRetries - 1 then
        (⟨.error (genCompFailAfter maxRetries e), attempt + 1, pool⟩, useBootstrap)
      else
        (⟨.error (genCompFailNow e), attempt + 1, pool⟩, useBootstrap)
    | .exc e =>
      if isPermissionError e then
        genCompGo oracle maxRetries (attempt + 1) pool false fuel
      else if openRouterIsRateLimitError e && hasMultipleKeys pool
          && decide (attempt < maxRetries - 1) then
        genCompGo oracle maxRetries (attempt + 1) (rotateKey pool).2 useBootstrap fuel
      else if hasMultipleKeys pool && decide (attempt < maxRetries - 1) then
        genCompGo oracle maxRetries (attempt + 1) (rotateKey pool).2 useBootstrap fuel
      else
        -- the source only logs here; the `for` moves to the next attempt
        genCompGo oracle maxRetries (attempt + 1) pool useBootstrap fuel

/-- `generate_component` (`component_generator.py` lines 165-357): the
retry loop, then — only when bootstrap context was in use throughout —
one reduced-context fallback call; otherwise `None` is returned for the
component (it is omitted, the run continues). -/
def generateComponentRun (oracle : Nat → GenCompCall) (fbCall : GenCompCall)
    (pool : KeyPool) (hasBootstrapFiles : Bool) : LoopResult (Option (List Char)) :=
  let mr := maxRetriesOf pool.size
  let (r, useB) := genCompGo oracle mr 0 pool hasBootstrapFiles mr
  match r.outcome with
  | .error _ => r
  | .ok (some _) => r
  | .ok none =>
    if useB then
      match fbCall with
      | .ok content =>
        ⟨.ok (some (cleanCodeBlock (pyStrip content))), r.attempts + 1, r.pool⟩
      | _ => ⟨.ok none, r.attempts + 1, r.pool⟩
    else ⟨.ok none, r.attempts, r.pool⟩

/-! ### `generate_all_components` (`component_generator.py` lines 360-574)

The call to `generate_component` is abstracted as a markup oracle
(indexed by component name and per-name call count) that either returns
markup, returns `None`, or raises — exactly the behaviours
`generateComponentRun` exhibits. The image side keeps the full
`generate_image_for_component` model. -/

/-- Outcome of one abstracted `generate_component` call. -/
inductive MarkupOutcome where
  | raise (e : PyError)
  | ret (code : Option (List Char))
deriving DecidableEq

/-- One recorded markup-generation call: component name, its sort key,
the accumulated image list passed as context, the number of image
provider calls made for this component just before it, and whether it
came from the post-loop Contact/Footer regeneration. -/
structure MarkupEvent where
  name : List Char
  orderKey : Nat
  images : List (List Char)
  imgCalls : Nat
  regen : Bool
deriving DecidableEq

/-- Python dict insertion: overwrite in place, else append. -/
def dictInsert (k v : List Char) :
    List (List Char × List Char) → List (List Char × List Char)
  | [] => [(k, v)]
  | (k', v') :: rest => if k' == k then (k', v) :: rest else (k', v') :: dictInsert k v rest

/-- Python dict lookup. -/
def dictLookup (k : List Char) : List (List Char × List Char) → Option (List Char)
  | [] => none
  | (k', v') :: rest => if k' == k then some v' else dictLookup k rest

/-- Mutable state of the generation loop: the components dict, the
accumulated image list, the image-provider pool, and the call trace. -/
structure GenState where
  components : List (List Char × List Char)
  images : List (List Char)
  pool : KeyPool
  trace : List MarkupEvent
deriving DecidableEq

/-- `x.get('order', 999)` — the sort key (line 434). -/
def orderKeyOf (c : Component) : Nat := c.order.getD 999

/-- The backward-compatibility fixed components (lines 396-421). -/
def fixedComponentsCompat : List Component :=
  [ baseComp ("Navigation".data)
      ("Fixed navigation bar with logo and navigation links".data) 1 false,
    baseComp ("Hero".data)
      ("Hero section with hero image, headline, and call-to-action".data) 2 true,
    baseComp ("Contact".data)
      ("Contact form with mailto: link (form onsubmit uses mailto:EMAIL with subject and body), address display, phone, email, and optional Google Maps embed for location".data)
      7 false,
    baseComp ("Footer".data)
      ("Footer with social links, copyright, and company information".data) 8 false ]

/-- The dynamic-component order fix-up of the compatibility branch
(lines 427-429). -/
def fixupDynamicOrders : List Component → Nat → List Component
  | [], _ => []
  | c :: rest, idx =>
    (match c.order with
     | none => { c with order := some (3 + idx) }
     | some o => if o < 3 then { c with order := some (3 + idx) } else c)
      :: fixupDynamicOrders rest (idx + 1)

/-- Number of markup calls already made for `name` (the per-name oracle
index). -/
def markupCallCount (trace : List MarkupEvent) (name : List Char) : Nat :=
  (trace.filter fun ev => ev.name == name).length

/-- STEP 1 of one loop iteration (lines 451-467): on-demand image
generation when `needs_image`, appending a returned reference — real or
fallback — to the accumulated list; returns the new state and the number
of image provider calls made. -/
def imageStep (imgO : List Char → Nat → ImgCall) (ts : List Char)
    (st : GenState) (comp : Component) : GenState × Nat :=
  if comp.needsImage then
    let compName := comp.name.getD ("Unknown".data)
    let r := generateImageForComponent (imgO compName) comp ts st.pool
    match r.url with
    | some u => ({ st with images := st.images ++ [u], pool := r.pool }, r.calls)
    | none => ({ st with pool := r.pool }, r.calls)
  else (st, 0)

/-- STEP 2 (lines 478-502) and the shape of the regeneration calls: one
markup call for `compName` with the current image list as context,
recording the call and inserting the markup when one is returned; a
raise aborts with the state reached. -/
def markupStep (mkO : List Char → Nat → MarkupOutcome) (compName : List Char)
    (key imgCallsMade : Nat) (isRegen : Bool) (st : GenState) :
    Except GenState GenState :=
  let idx := markupCallCount st.trace compName
  let ev : MarkupEvent := ⟨compName, key, st.images, imgCallsMade, isRegen⟩
  let st2 := { st with trace := st.trace ++ [ev] }
  match mkO compName idx with
  | .raise _e => .error st2
  | .ret none => .ok st2
  | .ret (some code) => .ok { st2 with components := dictInsert compName code st2.components }

/-- One iteration of the main generation loop (lines 445-502). -/
def processComponent (imgO : List Char → Nat → ImgCall)
    (mkO : List Char → Nat → MarkupOutcome) (ts : List Char)
    (st : GenState) (comp : Component) : Except GenState GenState :=
  let compName := comp.name.getD ("Unknown".data)
  let s := imageStep imgO ts st comp
  markupStep mkO compName (orderKeyOf comp) s.2 false s.1

/-- The main generation loop over the sorted descriptors. -/
def genAllGo (imgO : List Char → Nat → ImgCall) (mkO : List Char → Nat → MarkupOutcome)
    (ts : List Char) : List Component → GenState → Except GenState GenState
  | [], st => .ok st
  | comp :: rest, st =>
    match processComponent imgO mkO ts st comp with
    | .error st' => .error st'
    | .ok st' => genAllGo imgO mkO ts rest st'

/-- The post-loop regeneration of one missing fixed component
(lines 504-553): at most one further synchronous markup call for that
slot, made only when the component is absent and its descriptor exists. -/
def regenComponent (mkO : List Char → Nat → MarkupOutcome) (name : List Char)
    (sortedComps : List Component) (st : GenState) : Except GenState GenState :=
  if (dictLookup name st.components).isSome then .ok st
  else
    match sortedComps.find? (fun c => c.name == some name) with
    | none => .ok st
    | some comp => markupStep mkO name (orderKeyOf comp) 0 true st

/-- Result of `generate_all_components`: the components dict, the image
list (delivered through the `'__generated_images__'` key only when the
loop completed without a raised exception — the exception path returns
the bare partial dict), and the recorded call trace. -/
structure GenAllResult where
  components : List (List Char × List Char)
  imagesOut : Option (List (List Char))
  trace : List MarkupEvent
deriving DecidableEq

def contactName : List Char := "Contact".data

def footerName : List Char := "Footer".data

/-- The component list the loop iterates: the plan's `all_components`,
or its backward-compatibility rebuild when that list is empty
(lines 391-432). -/
def planComponents (plan : PlanResult) : List Component :=
  if plan.allComponents.isEmpty then
    fixedComponentsCompat ++ fixupDynamicOrders plan.dynamicComponents 0
  else plan.allComponents

/-- `all_components_from_plan.sort(key=lambda x: x.get('order', 999))`:
a stable ascending sort on the order key (line 434). -/
def sortedPlanComponents (plan : PlanResult) : List Component :=
  List.insertionSort (fun a b => orderKeyOf a ≤ orderKeyOf b) (planComponents plan)

/-- `generate_all_components`: compatibility rebuild when the plan holds
no `all_components`, stable ascending sort on `order`, the main loop,
then the Contact and Footer regeneration passes. -/
def generateAllComponents (imgO : List Char → Nat → ImgCall)
    (mkO : List Char → Nat → MarkupOutcome) (ts : List Char)
    (plan : PlanResult) (imageUrls : List (List Char)) (openaiPool : KeyPool) :
    GenAllResult :=
  match genAllGo imgO mkO ts (sortedPlanComponents plan) ⟨[], imageUrls, openaiPool, []⟩ with
  | .error st => ⟨st.components, none, st.trace⟩
  | .ok st =>
    match regenComponent mkO contactName (sortedPlanComponents plan) st with
    | .error st' => ⟨st'.components, none, st'.trace⟩
    | .ok st' =>
      match regenComponent mkO footerName (sortedPlanComponents plan) st' with
      | .error st'' => ⟨st''.components, none, st''.trace⟩
      | .ok st'' => ⟨st''.components, some st''.images, st''.trace⟩

/-! ## `utils/website_combiner.py` success-path post-processing and the
`create_website` route validation/injection (`routes/generate_code.py`
lines 260-294) -/

/-- The spacing CSS injected by `combine_components`
(`website_combiner.py` lines 161-167). -/
def spacingCss : List Char :=
  ("\n        /* Ensure proper spacing between sections */\n        section, .section, [class*=\"section\"] \x7b\n            padding-top: 80px !important;\n            padding-bottom: 80px !important;\n        \x7d\n        ").data

/-- `website_combiner.py` lines 125-130: make the document start with
`<!DOCTYPE`, slicing from an inner occurrence or prepending a fresh
declaration. -/
def ensureDoctype (s : List Char) : List Char :=
  if ("<!DOCTYPE".data).isPrefixOf s then s
  else if containsSub s ("<!DOCTYPE".data) then
    match findSub s ("<!DOCTYPE".data) with
    | some i => s.drop i
    | none => s
  else "<!DOCTYPE html>\n".data ++ s

/-- `website_combiner.py` lines 159-168: section-spacing CSS injection
at the first `<style>` tags when no spacing markers are present. -/
def injectSpacing (s : List Char) : List Char :=
  if !containsSub s ("padding-top: 80px".data) && !containsSub s ("py-5".data) then
    if containsSub s ("<style>".data) then
      replaceAll s ("<style>".data) ("<style>".data ++ spacingCss)
    else s
  else s

/-- The post-processing `combine_components` applies to a successful
merge response (`website_combiner.py` lines 117-171): strip, code-fence
cleanup, doctype normalization, spacing injection. The component
presence verification (lines 137-156) only logs and is omitted. -/
def combinePost (content : List Char) : List Char :=
  injectSpacing (ensureDoctype (cleanCodeBlock (pyStrip content)))

def bootstrapCssTag : List Char :=
  ("<link href=\"https://cdn.jsdelivr.net/npm/bootstrap@5.3.0/dist/css/bootstrap.min.css\" rel=\"stylesheet\">\n").data

def bootstrapJsTag : List Char :=
  ("<script src=\"https://cdn.jsdelivr.net/npm/bootstrap@5.3.0/dist/js/bootstrap.bundle.min.js\"></script>\n").data

/-- The CSS half of the Bootstrap injection (`routes/generate_code.py`
lines 276-279): insert the stylesheet link at the lowercase head tags
when one is present. -/
def injectBootstrapCss (g : List Char) : List Char :=
  if containsSub g ("</head>".data) then
    replaceAll g ("</head>".data) (bootstrapCssTag ++ "</head>".data)
  else if containsSub g ("<head>".data) then
    replaceAll g ("<head>".data) ("<head>\n".data ++ bootstrapCssTag)
  else g

/-- The JS half of the Bootstrap injection (lines 280-283), applied to
the (possibly already CSS-injected) document. -/
def injectBootstrapJs (g1 : List Char) : List Char :=
  if containsSub g1 ("</body>".data) then
    replaceAll g1 ("</body>".data) (bootstrapJsTag ++ "</body>".data)
  else if containsSub g1 ("<body>".data) then
    replaceAll g1 ("<body>".data) ("<body>\n".data ++ bootstrapJsTag)
  else g1

/-- `routes/generate_code.py` lines 271-283: Bootstrap CSS/JS injection
when the case-insensitive Bootstrap check fails; the replacements
themselves are case-sensitive and anchored at head/body tags. -/
def injectBootstrap (g : List Char) : List Char :=
  if !containsSub (lowerL g) ("bootstrap".data)
      || !containsSub (lowerL g) ("cdn.jsdelivr.net/npm/bootstrap".data) then
    injectBootstrapJs (injectBootstrapCss g)
  else g

/-- `routes/generate_code.py` lines 263-294: length check, case-
insensitive html/body structure check (raising, not injecting), Bootstrap
injection, and the final `.strip()` on the returned code. -/
def routeFinish (g : List Char) : Except PyError (List Char) :=
  if (pyStrip g).length < 100 then
    .error (excOfText ("Generated code is too short or empty. Please try again.".data))
  else if !containsSub (lowerL g) ("<html".data) || !containsSub (lowerL g) ("<body".data) then
    .error (excOfText
      ("Generated code is missing required HTML structure (html, body tags)".data))
  else .ok (pyStrip (injectBootstrap g))

/-- The document produced for a merge response that reaches the
combiner's success path, as returned by `create_website`. -/
def websiteCodeResult (content : List Char) : Except PyError (List Char) :=
  routeFinish (combinePost content)

/-! ## Shared concrete inputs -/

def demoForm : FormData :=
  ⟨some ("Acme Bakery".data), some ("Food".data), some ("Bakery".data), none, none,
    some ("#4f46e5".data), none⟩

def boomError : PyError := excOfText ("boom".data)

def rl429Error : PyError := excOfText ("429 client error: too many requests".data)

/-! ## Retry-loop lemmas -/

/-- A provider-call outcome that fails and is rate-limit-classified by
the OpenRouter classifier the planning loop consults. -/
def rateLimitedFailure : ProviderCall PlanData → Prop
  | .ok _ => False
  | .httpError e => openRouterIsRateLimitError e = true
  | .exc e => openRouterIsRateLimitError e = true

theorem rotateKey_size (p : KeyPool) : ((rotateKey p).2).size = p.size := by
  unfold rotateKey
  by_cases h : p.size ≤ 1 <;> simp [h]

theorem plannerGo_all_rl (oracle : Nat → ProviderCall PlanData) (N : Nat)
    (hfail : ∀ i, i < N → rateLimitedFailure (oracle i)) :
    ∀ fuel attempt pool, pool.size = N → attempt + fuel = N → 1 ≤ fuel →
      (∃ e, (plannerGo oracle N attempt pool fuel).outcome = .error e) ∧
      (plannerGo oracle N attempt pool fuel).attempts = N := by
  intro fuel
  induction fuel with
  | zero => intro _ _ _ _ h; omega
  | succ fuel ih =>
    intro attempt pool hsize hsum _
    have hlt : attempt < N := by omega
    have hf := hfail attempt hlt
    cases hoc : oracle attempt with
    | ok pd => rw [hoc] at hf; exact (hf : False).elim
    | httpError e =>
      rw [hoc] at hf
      have hf' : openRouterIsRateLimitError e = true := hf
      by_cases hN1 : N ≤ 1
      · have hN1' : N = 1 := by omega
        have ha0 : attempt = 0 := by omega
        have hfu : fuel = 0 := by omega
        subst ha0 hfu
        have hm : hasMultipleKeys pool = false := by
          simp [hasMultipleKeys, hsize]; omega
        simp [plannerGo, hoc, hf', hm, hN1']
      · have hm : hasMultipleKeys pool = true := by
          simp [hasMultipleKeys, hsize]; omega
        have hple : ¬ pool.size ≤ 1 := by omega
        have hrot : (rotateKey pool).1 = true := by
          simp [rotateKey, hple]
        cases fuel with
        | zero =>
          have ha : attempt + 1 = N := by omega
          simp [plannerGo, hoc, hf', hm, hrot, ha]
        | succ f =>
          have hrec := ih (attempt + 1) (rotateKey pool).2
            (by rw [rotateKey_size, hsize]) (by omega) (by omega)
          simpa [plannerGo, hoc, hf', hm, hrot] using hrec
    | exc e =>
      rw [hoc] at hf
      have hf' : openRouterIsRateLimitError e = true := hf
      by_cases hless : attempt < N - 1
      · have hm : hasMultipleKeys pool = true := by
          simp [hasMultipleKeys, hsize]; omega
        cases fuel with
        | zero => omega
        | succ f =>
          have hrec := ih (attempt + 1) (rotateKey pool).2
            (by rw [rotateKey_size, hsize]) (by omega) (by omega)
          simpa [plannerGo, hoc, hf', hm, hless] using hrec
      · have hfu : fuel = 0 := by omega
        subst hfu
        have ha : attempt + 1 = N := by omega
        simp [plannerGo, hoc, hless, ha]

/-- C1: for every pool of size `N ≥ 1` and every action failing with a
rate-limit-classified error on each attempt, the planning retry loop
makes exactly `N` attempts (one per credential) and propagates a
terminal failure; for `N = 1` it makes exactly one attempt and rotates
nothing (the pool is returned unchanged). -/
theorem c1_rate_limited_pool_exhaustion (N cursor : Nat) (hN : 1 ≤ N)
    (oracle : Nat → ProviderCall PlanData)
    (hfail : ∀ i, i < N → rateLimitedFailure (oracle i)) :
    (∃ e, (plannerLoop oracle ⟨N, cursor⟩).outcome = .error e) ∧
    (plannerLoop oracle ⟨N, cursor⟩).attempts = N ∧
    (N = 1 → (plannerLoop oracle ⟨N, cursor⟩).pool = ⟨N, cursor⟩) := by
  have hmr : maxRetriesOf N = N := by
    unfold maxRetriesOf
    simp
    omega
  have hmain := plannerGo_all_rl oracle N hfail N 0 ⟨N, cursor⟩ rfl (by omega) (by omega)
  refine ⟨?_, ?_, ?_⟩
  · simpa [plannerLoop, hmr] using hmain.1
  · simpa [plannerLoop, hmr] using hmain.2
  · intro hN1
    subst hN1
    have hf := hfail 0 (by omega)
    have hm : hasMultipleKeys (⟨1, cursor⟩ : KeyPool) = false := by
      simp [hasMultipleKeys]
    cases hoc : oracle 0 with
    | ok pd => rw [hoc] at hf; exact absurd hf not_false
    | httpError e =>
      rw [hoc] at hf
      simp [plannerLoop, hmr, plannerGo, maxRetriesOf, hoc, hf, hm]
    | exc e =>
      rw [hoc] at hf
      simp [plannerLoop, hmr, plannerGo, maxRetriesOf, hoc, hf, hm]

/-- Witness for C1 at `N = 2` with a constant rate-limited failure. -/
theorem c1_witness :
    (∃ e, (plannerLoop (fun _ => .exc rl429Error) ⟨2, 0⟩).outcome = .error e) ∧
    (plannerLoop (fun _ => .exc rl429Error) ⟨2, 0⟩).attempts = 2 := by
  have h := c1_rate_limited_pool_exhaustion 2 0 (by omega) (fun _ => .exc rl429Error)
    (fun i _ => by show openRouterIsRateLimitError rl429Error = true; decide)
  exact ⟨h.1, h.2.1⟩

/-- C2 counterexample: a non-rate-limit generic failure on attempt 1 of
a 2-key pool does NOT propagate immediately — the loop rotates and calls
the action a second time (2 attempts, not 1). -/
theorem c2_counterexample :
    (plannerLoop (fun _ => .exc boomError) ⟨2, 0⟩).attempts = 2 ∧
    ¬ (plannerLoop (fun _ => .exc boomError) ⟨2, 0⟩).attempts = 1 := by
  decide

/-- C2 as amended: only a non-rate-limit failure raised as an HTTP error
propagates immediately from attempt 1 of an `N > 1` pool (one action
call, pool untouched, wrapped terminal error), in both the planning loop
and the component-generation loop; other non-rate-limit exceptions are
retried after rotation (see the counterexample). -/
theorem c2_amended_http_error_immediate (pool : KeyPool) (hp : 1 < pool.size)
    (e : PyError) (hrl : openRouterIsRateLimitError e = false)
    (o₁ : Nat → ProviderCall PlanData) (h₁ : o₁ 0 = .httpError e)
    (o₂ : Nat → GenCompCall) (h₂ : o₂ 0 = .httpError e) (fb : GenCompCall) (bs : Bool) :
    plannerLoop o₁ pool = ⟨.error (planFailNowText e), 1, pool⟩ ∧
    generateComponentRun o₂ fb pool bs = ⟨.error (genCompFailNow e), 1, pool⟩ := by
  have hmr : maxRetriesOf pool.size = pool.size := by
    unfold maxRetriesOf
    simp
    omega
  have hne : (0 == pool.size - 1) = false := by
    simp
    omega
  obtain ⟨n, hn⟩ : ∃ n, pool.size = n + 1 := ⟨pool.size - 1, by omega⟩
  constructor
  · rw [plannerLoop, hmr, hn]
    simp [plannerGo, h₁, hrl, ← hn, hne]
  · rw [generateComponentRun]
    rw [hmr, hn]
    simp [genCompGo, h₂, hrl, ← hn, hne]

/-- Witness for the amended C2 at a concrete 2-key pool. -/
theorem c2_amended_witness :
    plannerLoop (fun _ => .httpError boomError) ⟨2, 0⟩
      = ⟨.error (planFailNowText boomError), 1, ⟨2, 0⟩⟩ ∧
    generateComponentRun (fun _ => .httpError boomError) (.exc boomError) ⟨2, 0⟩ false
      = ⟨.error (genCompFailNow boomError), 1, ⟨2, 0⟩⟩ :=
  c2_amended_http_error_immediate ⟨2, 0⟩ (by decide) boomError (by decide)
    (fun _ => .httpError boomError) rfl (fun _ => .httpError boomError) rfl
    (.exc boomError) false

/-! ## C4: deterministic fallback plan -/

/-- A planning provider call that fails: an exception of either kind, or
a response whose structure validation raises. -/
def planningCallFails : ProviderCall PlanData → Prop
  | .ok pd => ∃ e, validateBuild pd = .error e
  | .httpError _ => True
  | .exc _ => True

theorem plannerGo_all_fail (oracle : Nat → ProviderCall PlanData) (mr : Nat)
    (hfail : ∀ i, planningCallFails (oracle i)) :
    ∀ fuel attempt pool, ∃ e, (plannerGo oracle mr attempt pool fuel).outcome = .error e := by
  intro fuel
  induction fuel with
  | zero => intro attempt pool; exact ⟨allPlanningFailed, rfl⟩
  | succ fuel ih =>
    intro attempt pool
    have hf := hfail attempt
    cases hoc : oracle attempt with
    | ok pd =>
      rw [hoc] at hf
      obtain ⟨e, he⟩ := hf
      simp only [plannerGo, hoc, he]
      split
      · exact ih (attempt + 1) (rotateKey pool).2
      · split
        · exact ih (attempt + 1) _
        · exact ⟨e, rfl⟩
    | httpError e =>
      simp only [plannerGo, hoc]
      split
      · exact ih (attempt + 1) (rotateKey pool).2
      · split
        · exact ⟨planFailAfterText mr e, rfl⟩
        · exact ⟨planFailNowText e, rfl⟩
    | exc e =>
      simp only [plannerGo, hoc]
      split
      · exact ih (attempt + 1) (rotateKey pool).2
      · split
        · exact ih (attempt + 1) _
        · exact ⟨e, rfl⟩

/-- C4: when every provider call inside planning fails (exception or
parse/validation failure), the planner returns exactly the deterministic
fallback plan built from the profile alone, and any two such runs (even
with different failure behaviours) return identical plans. -/
theorem c4_fallback_plan_deterministic (pool : KeyPool) (form : FormData)
    (o₁ o₂ : Nat → ProviderCall PlanData)
    (h₁ : ∀ i, planningCallFails (o₁ i)) (h₂ : ∀ i, planningCallFails (o₂ i)) :
    planWebsiteComponents o₁ pool form = getFallbackPlan form ∧
    planWebsiteComponents o₁ pool form = planWebsiteComponents o₂ pool form := by
  have key : ∀ (o : Nat → ProviderCall PlanData), (∀ i, planningCallFails (o i)) →
      planWebsiteComponents o pool form = getFallbackPlan form := by
    intro o ho
    unfold planWebsiteComponents
    by_cases hz : pool.size = 0
    · simp [hz]
    · obtain ⟨e, he⟩ := plannerGo_all_fail o (maxRetriesOf pool.size) ho
        (maxRetriesOf pool.size) 0 pool
      simp [hz, plannerLoop, he]
  exact ⟨key o₁ h₁, (key o₁ h₁).trans (key o₂ h₂).symm⟩

/-- Witness for C4 at a concrete always-failing oracle and profile. -/
theorem c4_witness :
    planWebsiteComponents (fun _ => .exc boomError) ⟨2, 0⟩ demoForm
      = getFallbackPlan demoForm :=
  (c4_fallback_plan_deterministic ⟨2, 0⟩ demoForm (fun _ => .exc boomError)
    (fun _ => .exc boomError) (fun _ => trivial) (fun _ => trivial)).1

/-! ## C3: planner output shape and response validation -/

def bogusComponent : Component := baseComp ("X".data) ("p".data) 1 false

def bogusPlanData : PlanData := ⟨some (List.replicate 8 bogusComponent), none⟩

def bogusOracle : Nat → ProviderCall PlanData := fun _ => .ok bogusPlanData

/-- C3 counterexample: a provider response with 8 components that all
violate the claimed slot/role constraints is accepted by the planner's
validation (which only checks presence and count), and the returned
descriptors do not satisfy the claimed shape. -/
theorem c3_counterexample :
    (planWebsiteComponents bogusOracle ⟨1, 0⟩ demoForm).allComponents
      = List.replicate 8 bogusComponent ∧
    claimedPlanShape (planWebsiteComponents bogusOracle ⟨1, 0⟩ demoForm).allComponents
      = false := by
  constructor
  · rfl
  · decide

theorem plannerGo_ok_length (oracle : Nat → ProviderCall PlanData) (mr : Nat) :
    ∀ fuel attempt pool r, (plannerGo oracle mr attempt pool fuel).outcome = .ok r →
      r.allComponents.length = 8 := by
  intro fuel
  induction fuel with
  | zero => intro attempt pool r h; exact absurd h (by simp [plannerGo])
  | succ fuel ih =>
    intro attempt pool r h
    cases hoc : oracle attempt with
    | ok pd =>
      simp only [plannerGo, hoc] at h
      cases hv : validateBuild pd with
      | ok r' =>
        rw [hv] at h
        simp at h
        subst h
        unfold validateBuild at hv
        split at hv
        · exact absurd hv (by simp)
        · split at hv
          · exact absurd hv (by simp)
          · rename_i hlen
            simp only [Except.ok.injEq] at hv
            rw [← hv]
            simpa using hlen
      | error e =>
        rw [hv] at h
        split at h
        · rename_i r2 heq
          exact absurd heq (by simp)
        · rename_i e2 heq
          split at h
          · exact ih _ _ _ h
          · split at h
            · exact ih _ _ _ h
            · exact absurd h (by simp)
    | httpError e =>
      simp only [plannerGo, hoc] at h
      split at h
      · exact ih _ _ _ h
      · split at h
        · exact absurd h (by simp)
        · exact absurd h (by simp)
    | exc e =>
      simp only [plannerGo, hoc] at h
      split at h
      · exact ih _ _ _ h
      · split at h
        · exact ih _ _ _ h
        · exact absurd h (by simp)

/-- C3 as amended: the planner's validation enforces only the presence
of the components field and a length of exactly 8 — every returned plan
(provider-supplied or fallback) has exactly 8 descriptors — while the
full claimed slot/role/`needs_image` shape is guaranteed only for the
deterministic fallback plan. -/
theorem c3_amended_validation_count_only (oracle : Nat → ProviderCall PlanData)
    (pool : KeyPool) (form : FormData) :
    (planWebsiteComponents oracle pool form).allComponents.length = 8 ∧
    claimedPlanShape (getFallbackPlan form).allComponents = true := by
  constructor
  · unfold planWebsiteComponents
    by_cases hz : pool.size = 0
    · rw [if_pos hz]
      rfl
    · rw [if_neg hz]
      cases ho : (plannerLoop oracle pool).outcome with
      | ok r => exact plannerGo_ok_length oracle (maxRetriesOf pool.size) _ 0 pool r ho
      | error e => rfl
  · rfl

/-! ## C8: rate-limit classification stages -/

/-- C8: both rate-limit classifiers compute exactly the classification
described by the spec's three-stage inspection (numeric status-code
fields, textual status markers, provider vocabulary in nested payloads)
— the two orders are extensionally equal — and an error whose numeric
status field is 429 is classified as rate-limit regardless of its text. -/
theorem c8_classification_stages (e : PyError) :
    openAIIsRateLimitError e = openAISpecOrderClassifier e ∧
    openRouterIsRateLimitError e = openRouterSpecOrderClassifier e ∧
    (e.statusCode = some 429 → openAIIsRateLimitError e = true) ∧
    (e.responseStatus = some 429 → openRouterIsRateLimitError e = true) := by
  refine ⟨?_, ?_, ?_, ?_⟩
  · unfold openAIIsRateLimitError openAISpecOrderClassifier
    cases h1 : containsSub e.text ("429".data) <;>
    cases h2 : containsSub (lowerL e.text) ("rate limit exceeded".data) <;>
    cases h3 : containsSub (lowerL e.typeName) ("openai_ratelimit_error".data) <;>
    cases h4 : e.statusCode == some 429 <;>
    cases h5 : e.status == some 429 <;>
    cases h6 : e.args.any openAIArgHit <;>
    cases h7 : openAIMessageHit e <;>
    simp [h1, h2, h3, h4, h5, h6, h7]
  · unfold openRouterIsRateLimitError openRouterSpecOrderClassifier
    cases h1 : containsSub (lowerL e.text) ("429 client error".data) <;>
    cases h2 : containsSub (lowerL e.text) ("rate limit exceeded".data) <;>
    cases h3 : e.responseStatus == some 429 <;>
    cases h4 : containsSub (lowerL e.text) ("x-ratelimit-remaining".data) <;>
    cases h5 : containsSub (lowerL e.text) ("openrouter_ratelimit".data) <;>
    simp [h1, h2, h3, h4, h5]
  · intro h
    unfold openAIIsRateLimitError
    cases h1 : containsSub e.text ("429".data) <;>
    cases h2 : containsSub (lowerL e.text) ("rate limit exceeded".data) <;>
    cases h3 : containsSub (lowerL e.typeName) ("openai_ratelimit_error".data) <;>
    simp [h1, h2, h3, h]
  · intro h
    unfold openRouterIsRateLimitError
    cases h1 : containsSub (lowerL e.text) ("429 client error".data) <;>
    cases h2 : containsSub (lowerL e.text) ("rate limit exceeded".data) <;>
    simp [h1, h2, h]

/-- Witness for C8: numeric-field-only 429 errors with non-matching text
are classified as rate-limit by both classifiers. -/
theorem c8_witness :
    openAIIsRateLimitError ⟨"weird".data, "TypeErr".data, some 429, none, none, [], none⟩
      = true ∧
    openRouterIsRateLimitError ⟨"weird".data, "TypeErr".data, none, none, some 429, [], none⟩
      = true :=
  ⟨(c8_classification_stages
      ⟨"weird".data, "TypeErr".data, some 429, none, none, [], none⟩).2.2.1 rfl,
   (c8_classification_stages
      ⟨"weird".data, "TypeErr".data, none, none, some 429, [], none⟩).2.2.2 rfl⟩

/-! ## Generator step lemmas (for C6, C7, C9, C10) -/

/-- The state carried out of a loop phase, whether it ended normally or
by a raised exception. -/
def resState : Except GenState GenState → GenState
  | .ok st => st
  | .error st => st

/-- A failing image provider call (no image produced). -/
def imgCallFails : ImgCall → Prop
  | .ok _ => False
  | .noData => True
  | .exc _ => True

theorem genImageGo_all_fail (oracle : Nat → ImgCall) (compName ts : List Char) (mr : Nat)
    (hf : ∀ i, imgCallFails (oracle i)) :
    ∀ fuel attempt pool,
      (genImageGo oracle compName ts mr attempt pool fuel).url
        = some (fallbackImageFor compName) := by
  intro fuel
  induction fuel with
  | zero => intro attempt pool; rfl
  | succ fuel ih =>
    intro attempt pool
    cases hoc : oracle attempt with
    | ok u =>
      have hfa := hf attempt
      rw [hoc] at hfa
      exact (hfa : False).elim
    | noData =>
      simp only [genImageGo, hoc]
      exact ih _ _
    | exc e =>
      simp only [genImageGo, hoc]
      split
      · exact ih _ _
      · split
        · exact ih _ _
        · rfl

theorem imageStep_spec (imgO : List Char → Nat → ImgCall) (ts : List Char)
    (st : GenState) (comp : Component) :
    (imageStep imgO ts st comp).1.trace = st.trace ∧
    (imageStep imgO ts st comp).1.components = st.components ∧
    st.images <+: (imageStep imgO ts st comp).1.images := by
  unfold imageStep
  by_cases hni : comp.needsImage
  · simp only [hni, if_true]
    cases (generateImageForComponent
        (imgO (comp.name.getD ("Unknown".data))) comp ts st.pool).url with
    | some u => exact ⟨rfl, rfl, List.prefix_append _ _⟩
    | none => exact ⟨rfl, rfl, List.prefix_refl _⟩
  · simp only [hni, if_false]
    exact ⟨rfl, rfl, List.prefix_refl _⟩

theorem markupStep_spec (mkO : List Char → Nat → MarkupOutcome) (compName : List Char)
    (key calls : Nat) (isRegen : Bool) (st : GenState) :
    (resState (markupStep mkO compName key calls isRegen st)).trace
      = st.trace ++ [⟨compName, key, st.images, calls, isRegen⟩] ∧
    (resState (markupStep mkO compName key calls isRegen st)).images = st.images := by
  cases hmk : mkO compName (markupCallCount st.trace compName) with
  | raise e => simp [markupStep, resState, hmk]
  | ret c =>
    cases c with
    | none => simp [markupStep, resState, hmk]
    | some code => simp [markupStep, resState, hmk]

theorem processComponent_spec (imgO : List Char → Nat → ImgCall)
    (mkO : List Char → Nat → MarkupOutcome) (ts : List Char)
    (st : GenState) (comp : Component) :
    ∃ ev : MarkupEvent, ev.regen = false ∧ ev.orderKey = orderKeyOf comp ∧
      (resState (processComponent imgO mkO ts st comp)).trace = st.trace ++ [ev] ∧
      (resState (processComponent imgO mkO ts st comp)).images = ev.images ∧
      st.images <+: ev.images := by
  obtain ⟨ht, _, him⟩ := imageStep_spec imgO ts st comp
  obtain ⟨ht2, him2⟩ := markupStep_spec mkO (comp.name.getD ("Unknown".data))
    (orderKeyOf comp) (imageStep imgO ts st comp).2 false (imageStep imgO ts st comp).1
  refine ⟨⟨comp.name.getD ("Unknown".data), orderKeyOf comp,
    (imageStep imgO ts st comp).1.images, (imageStep imgO ts st comp).2, false⟩,
    rfl, rfl, ?_, ?_, him⟩
  · rw [processComponent]
    rw [ht2, ht]
  · rw [processComponent]
    rw [him2]

/-! ## C6: fallback image on exhausted retries -/

def c6Nav : Component := baseComp ("Navigation".data) ("nav".data) 1 false

def c6Hero : Component :=
  { baseComp ("Hero".data) ("hero".data) 2 true with imagePrompt := some ("hero banner".data) }

def c6Contact : Component := baseComp ("Contact".data) ("contact".data) 7 false

def c6Footer : Component := baseComp ("Footer".data) ("footer".data) 8 false

def c6Plan : PlanResult := ⟨[c6Nav, c6Hero, c6Contact, c6Footer], [], none, none, none⟩

def c6ImgOracle : List Char → Nat → ImgCall := fun _ _ => .exc (excOfText ("img down".data))

def c6ImgOracleFlat : Nat → ImgCall := fun _ => .exc (excOfText ("img down".data))

def c6MkOracle : List Char → Nat → MarkupOutcome :=
  fun n _ => .ret (some ("<section>".data ++ n ++ "</section>".data))

def c6Ts : List Char := "20250101_000000".data

/-- C6: when image generation exhausts every retry attempt, a fixed
pre-defined fallback reference is substituted — the Hero-specific one
for the Hero role, the shared additional one otherwise — and the run
goes on; concretely, with the Hero slot's image generation always
failing, the pipeline's image list holds the Hero fallback reference and
the component map still holds a Hero markup entry. -/
theorem c6_fallback_image_on_exhaustion (comp : Component)
    (hp : (comp.imagePrompt.getD []).isEmpty = false)
    (oracle : Nat → ImgCall) (hf : ∀ i, imgCallFails (oracle i))
    (ts : List Char) (pool : KeyPool) :
    (generateImageForComponent oracle comp ts pool).url
      = some (fallbackImageFor (comp.name.getD ("component".data))) ∧
    (dictLookup ("Hero".data)
        (generateAllComponents c6ImgOracle c6MkOracle c6Ts c6Plan [] ⟨1, 0⟩).components)
      = some ("<section>Hero</section>".data) ∧
    (generateAllComponents c6ImgOracle c6MkOracle c6Ts c6Plan [] ⟨1, 0⟩).imagesOut
      = some [heroFallbackPath] := by
  refine ⟨?_, by decide, by decide⟩
  unfold generateImageForComponent
  rw [if_neg (by rw [hp]; exact Bool.false_ne_true)]
  exact genImageGo_all_fail oracle _ ts _ hf _ 0 pool

/-- Witness for C6's universal part at the concrete Hero descriptor. -/
theorem c6_witness :
    (generateImageForComponent c6ImgOracleFlat c6Hero c6Ts ⟨1, 0⟩).url
      = some (fallbackImageFor (c6Hero.name.getD ("component".data))) :=
  (c6_fallback_image_on_exhaustion c6Hero (by decide)
    c6ImgOracleFlat (fun _ => trivial) c6Ts ⟨1, 0⟩).1

/-! ## C10: missing image prompt short-circuits image generation -/

def c10Gallery : Component :=
  { baseComp ("Gallery".data) ("gallery".data) 3 true with imagePrompt := none }

def c10Plan : PlanResult := ⟨[c6Nav, c10Gallery, c6Contact, c6Footer], [], none, none, none⟩

/-- C10: a descriptor with `needs_image` set but an empty or missing
`image_prompt` yields no image reference at all and zero provider calls
— so neither a generated nor a fallback reference joins the accumulated
list — while the component's markup is still generated; concretely, a
prompt-less Gallery slot leaves the image list empty, records zero image
calls, and the Gallery markup entry is still present. -/
theorem c10_missing_prompt_skips_image (comp : Component)
    (hp : comp.imagePrompt.getD [] = [])
    (oracle : Nat → ImgCall) (ts : List Char) (pool : KeyPool) :
    generateImageForComponent oracle comp ts pool = ⟨none, 0, pool⟩ ∧
    (generateAllComponents c6ImgOracle c6MkOracle c6Ts c10Plan [] ⟨1, 0⟩).imagesOut
      = some [] ∧
    (dictLookup ("Gallery".data)
        (generateAllComponents c6ImgOracle c6MkOracle c6Ts c10Plan [] ⟨1, 0⟩).components)
      = some ("<section>Gallery</section>".data) ∧
    ((generateAllComponents c6ImgOracle c6MkOracle c6Ts c10Plan [] ⟨1, 0⟩).trace.filter
        (fun ev => ev.name == "Gallery".data)).map MarkupEvent.imgCalls = [0] := by
  refine ⟨?_, by decide, by decide, by decide⟩
  unfold generateImageForComponent
  rw [if_pos (by rw [hp]; rfl)]

/-- Witness for C10's universal part at the concrete Gallery descriptor. -/
theorem c10_witness :
    generateImageForComponent c6ImgOracleFlat c10Gallery c6Ts ⟨1, 0⟩
      = ⟨none, 0, ⟨1, 0⟩⟩ :=
  (c10_missing_prompt_skips_image c10Gallery rfl c6ImgOracleFlat c6Ts ⟨1, 0⟩).1

/-! ## Trace decomposition of the generation pipeline (for C7 and C9) -/

theorem genAllGo_trace (imgO : List Char → Nat → ImgCall)
    (mkO : List Char → Nat → MarkupOutcome) (ts : List Char) :
    ∀ (comps : List Component) (st : GenState), ∃ evs : List MarkupEvent,
      (resState (genAllGo imgO mkO ts comps st)).trace = st.trace ++ evs ∧
      (∀ ev ∈ evs, ev.regen = false) ∧
      evs.map MarkupEvent.orderKey <+: comps.map orderKeyOf := by
  intro comps
  induction comps with
  | nil =>
    intro st
    exact ⟨[], by simp [genAllGo, resState], by simp, by simp⟩
  | cons comp rest ih =>
    intro st
    obtain ⟨ev, hre, hkey, htr, _, _⟩ := processComponent_spec imgO mkO ts st comp
    cases hpc : processComponent imgO mkO ts st comp with
    | error st' =>
      rw [hpc] at htr
      refine ⟨[ev], ?_, ?_, ?_⟩
      · simp only [genAllGo, hpc, resState]
        simpa [resState] using htr
      · intro e he
        rw [List.mem_singleton] at he
        rw [he]
        exact hre
      · simp only [List.map_cons, List.map_singleton]
        rw [hkey]
        exact ⟨rest.map orderKeyOf, rfl⟩
    | ok st' =>
      rw [hpc] at htr
      obtain ⟨evs', htr', hreg', hpre'⟩ := ih st'
      refine ⟨ev :: evs', ?_, ?_, ?_⟩
      · simp only [genAllGo, hpc]
        rw [htr']
        simp only [resState] at htr
        rw [htr, List.append_assoc, List.singleton_append]
      · intro e he
        rcases List.mem_cons.mp he with h | h
        · rw [h]; exact hre
        · exact hreg' e h
      · simp only [List.map_cons]
        exact List.cons_prefix_iff.mpr ⟨hkey, hpre'⟩

theorem regenComponent_trace (mkO : List Char → Nat → MarkupOutcome) (name : List Char)
    (sortedComps : List Component) (st : GenState) :
    (resState (regenComponent mkO name sortedComps st)).trace = st.trace ∨
    ∃ ev : MarkupEvent, ev.name = name ∧ ev.regen = true ∧
      (resState (regenComponent mkO name sortedComps st)).trace = st.trace ++ [ev] := by
  unfold regenComponent
  by_cases hl : (dictLookup name st.components).isSome = true
  · left; simp [hl, resState]
  · simp only [hl]
    cases hfind : sortedComps.find? (fun c => c.name == some name) with
    | none => left; simp [resState]
    | some comp =>
      right
      obtain ⟨htr, _⟩ := markupStep_spec mkO name (orderKeyOf comp) 0 true st
      exact ⟨⟨name, orderKeyOf comp, st.images, 0, true⟩, rfl, rfl, by simpa using htr⟩

theorem generateAllComponents_trace_decomp (imgO : List Char → Nat → ImgCall)
    (mkO : List Char → Nat → MarkupOutcome) (ts : List Char) (plan : PlanResult)
    (imageUrls : List (List Char)) (pool : KeyPool) :
    ∃ loopEvs cEvs fEvs : List MarkupEvent,
      (generateAllComponents imgO mkO ts plan imageUrls pool).trace
        = loopEvs ++ (cEvs ++ fEvs) ∧
      (∀ ev ∈ loopEvs, ev.regen = false) ∧
      loopEvs.map MarkupEvent.orderKey <+: (sortedPlanComponents plan).map orderKeyOf ∧
      (cEvs = [] ∨ ∃ ev : MarkupEvent, cEvs = [ev] ∧ ev.name = contactName
        ∧ ev.regen = true) ∧
      (fEvs = [] ∨ ∃ ev : MarkupEvent, fEvs = [ev] ∧ ev.name = footerName
        ∧ ev.regen = true) := by
  obtain ⟨evs, htr, hreg, hpre⟩ := genAllGo_trace imgO mkO ts (sortedPlanComponents plan)
    ⟨[], imageUrls, pool, []⟩
  unfold generateAllComponents
  cases hg : genAllGo imgO mkO ts (sortedPlanComponents plan) ⟨[], imageUrls, pool, []⟩ with
  | error st =>
    rw [hg] at htr
    simp only [resState] at htr
    exact ⟨evs, [], [], by simpa using htr, hreg, hpre, Or.inl rfl, Or.inl rfl⟩
  | ok st =>
    rw [hg] at htr
    simp only [resState, List.nil_append] at htr
    have hc := regenComponent_trace mkO contactName (sortedPlanComponents plan) st
    cases hrc : regenComponent mkO contactName (sortedPlanComponents plan) st with
    | error st' =>
      rw [hrc] at hc
      simp only [resState] at hc
      rcases hc with hc0 | ⟨ev, hevn, hevr, hc1⟩
      · exact ⟨evs, [], [], by simp [hrc, hc0, htr], hreg, hpre, Or.inl rfl, Or.inl rfl⟩
      · exact ⟨evs, [ev], [], by simp [hrc, hc1, htr], hreg, hpre,
          Or.inr ⟨ev, rfl, hevn, hevr⟩, Or.inl rfl⟩
    | ok st' =>
      rw [hrc] at hc
      simp only [resState] at hc
      have hf := regenComponent_trace mkO footerName (sortedPlanComponents plan) st'
      cases hrf : regenComponent mkO footerName (sortedPlanComponents plan) st' with
      | error st'' =>
        rw [hrf] at hf
        simp only [resState] at hf
        rcases hc with hc0 | ⟨ev, hevn, hevr, hc1⟩ <;>
          rcases hf with hf0 | ⟨ev2, hevn2, hevr2, hf1⟩
        · exact ⟨evs, [], [], by simp [hrc, hrf, hf0, hc0, htr], hreg, hpre, Or.inl rfl, Or.inl rfl⟩
        · exact ⟨evs, [], [ev2], by simp [hrc, hrf, hf1, hc0, htr], hreg, hpre, Or.inl rfl,
            Or.inr ⟨ev2, rfl, hevn2, hevr2⟩⟩
        · exact ⟨evs, [ev], [], by simp [hrc, hrf, hf0, hc1, htr], hreg, hpre,
            Or.inr ⟨ev, rfl, hevn, hevr⟩, Or.inl rfl⟩
        · exact ⟨evs, [ev], [ev2], by simp [hrc, hrf, hf1, hc1, htr], hreg, hpre,
            Or.inr ⟨ev, rfl, hevn, hevr⟩, Or.inr ⟨ev2, rfl, hevn2, hevr2⟩⟩
      | ok st'' =>
        rw [hrf] at hf
        simp only [resState] at hf
        rcases hc with hc0 | ⟨ev, hevn, hevr, hc1⟩ <;>
          rcases hf with hf0 | ⟨ev2, hevn2, hevr2, hf1⟩
        · exact ⟨evs, [], [], by simp [hrc, hrf, hf0, hc0, htr], hreg, hpre, Or.inl rfl, Or.inl rfl⟩
        · exact ⟨evs, [], [ev2], by simp [hrc, hrf, hf1, hc0, htr], hreg, hpre, Or.inl rfl,
            Or.inr ⟨ev2, rfl, hevn2, hevr2⟩⟩
        · exact ⟨evs, [ev], [], by simp [hrc, hrf, hf0, hc1, htr], hreg, hpre,
            Or.inr ⟨ev, rfl, hevn, hevr⟩, Or.inl rfl⟩
        · exact ⟨evs, [ev], [ev2], by simp [hrc, hrf, hf1, hc1, htr], hreg, hpre,
            Or.inr ⟨ev, rfl, hevn, hevr⟩, Or.inr ⟨ev2, rfl, hevn2, hevr2⟩⟩

/-! ## C7: post-loop Contact/Footer regeneration -/

/-- Number of regeneration-phase markup calls recorded for `name`. -/
def regenEventCount (r : GenAllResult) (name : List Char) : Nat :=
  (r.trace.filter fun ev => ev.regen && ev.name == name).length

def c7MkOracle : List Char → Nat → MarkupOutcome := fun n i =>
  if n == "Footer".data then
    (if i == 0 then .ret none else .ret (some ("<footer>done</footer>".data)))
  else .ret (some ("<div>".data ++ n ++ "</div>".data))

def c7Plan : PlanResult :=
  ⟨[c6Nav, baseComp ("Hero".data) ("hero".data) 2 false, c6Contact, c6Footer],
    [], none, none, none⟩

theorem regenEventCount_le_one (imgO : List Char → Nat → ImgCall)
    (mkO : List Char → Nat → MarkupOutcome) (ts : List Char) (plan : PlanResult)
    (imageUrls : List (List Char)) (pool : KeyPool) :
    regenEventCount (generateAllComponents imgO mkO ts plan imageUrls pool)
      ("Contact".data) ≤ 1 ∧
    regenEventCount (generateAllComponents imgO mkO ts plan imageUrls pool)
      ("Footer".data) ≤ 1 := by
  obtain ⟨loopEvs, cEvs, fEvs, htr, hloop, _, hc, hf⟩ :=
    generateAllComponents_trace_decomp imgO mkO ts plan imageUrls pool
  have hloopnil : ∀ name : List Char,
      (loopEvs.filter fun ev => ev.regen && ev.name == name) = [] := by
    intro name
    rw [List.filter_eq_nil_iff]
    intro ev hev
    rw [hloop ev hev]
    simp
  constructor
  · unfold regenEventCount
    rw [htr, List.filter_append, List.filter_append, hloopnil]
    have hfn : (fEvs.filter fun ev => ev.regen && ev.name == "Contact".data) = [] := by
      rcases hf with h | ⟨ev, hev, hn, _⟩
      · rw [h]; rfl
      · rw [hev]
        rw [List.filter_eq_nil_iff]
        intro e he
        rw [List.mem_singleton] at he
        rw [he]
        simp only [hn]
        rw [show (footerName == "Contact".data) = false from by decide, Bool.and_false]
        exact Bool.false_ne_true
    rw [hfn]
    rcases hc with h | ⟨ev, hev, _, _⟩
    · rw [h]; simp
    · rw [hev]
      simpa using List.length_filter_le _ [ev]
  · unfold regenEventCount
    rw [htr, List.filter_append, List.filter_append, hloopnil]
    have hcn : (cEvs.filter fun ev => ev.regen && ev.name == "Footer".data) = [] := by
      rcases hc with h | ⟨ev, hev, hn, _⟩
      · rw [h]; rfl
      · rw [hev]
        rw [List.filter_eq_nil_iff]
        intro e he
        rw [List.mem_singleton] at he
        rw [he]
        simp only [hn]
        rw [show (contactName == "Footer".data) = false from by decide, Bool.and_false]
        exact Bool.false_ne_true
    rw [hcn]
    rcases hf with h | ⟨ev, hev, _, _⟩
    · rw [h]; simp
    · rw [hev]
      simpa using List.length_filter_le _ [ev]

/-- C7: after the main loop at most one synchronous regeneration call is
made for the Contact slot and at most one for the Footer slot (and only
when the slot is absent); concretely, with Footer markup failing on the
first pass and succeeding on the regeneration pass, the final component
map includes Footer, exactly two Footer markup calls are recorded, and
exactly one of them is the regeneration call. -/
theorem c7_footer_regeneration (imgO : List Char → Nat → ImgCall)
    (mkO : List Char → Nat → MarkupOutcome) (ts : List Char) (plan : PlanResult)
    (imageUrls : List (List Char)) (pool : KeyPool) :
    regenEventCount (generateAllComponents imgO mkO ts plan imageUrls pool)
      ("Contact".data) ≤ 1 ∧
    regenEventCount (generateAllComponents imgO mkO ts plan imageUrls pool)
      ("Footer".data) ≤ 1 ∧
    dictLookup ("Footer".data)
        (generateAllComponents c6ImgOracle c7MkOracle c6Ts c7Plan [] ⟨1, 0⟩).components
      = some ("<footer>done</footer>".data) ∧
    markupCallCount
        (generateAllComponents c6ImgOracle c7MkOracle c6Ts c7Plan [] ⟨1, 0⟩).trace
        ("Footer".data) = 2 ∧
    regenEventCount (generateAllComponents c6ImgOracle c7MkOracle c6Ts c7Plan [] ⟨1, 0⟩)
      ("Footer".data) = 1 := by
  obtain ⟨h1, h2⟩ := regenEventCount_le_one imgO mkO ts plan imageUrls pool
  exact ⟨h1, h2, by decide, by decide, by decide⟩

/-! ## C9: processing order and image-context accumulation -/

/-- The run invariant: recorded image contexts grow along the trace, and
every recorded context is a prefix of the current image list. -/
def traceInv (st : GenState) : Prop :=
  st.trace.Pairwise (fun a b => a.images <+: b.images) ∧
  st.trace.Forall (fun ev => ev.images <+: st.images)

theorem traceInv_imageStep (imgO : List Char → Nat → ImgCall) (ts : List Char)
    (st : GenState) (comp : Component) (h : traceInv st) :
    traceInv (imageStep imgO ts st comp).1 := by
  obtain ⟨ht, _, him⟩ := imageStep_spec imgO ts st comp
  obtain ⟨h1, h2⟩ := h
  rw [List.forall_iff_forall_mem] at h2
  constructor
  · rw [ht]; exact h1
  · rw [ht, List.forall_iff_forall_mem]
    intro ev hev
    exact (h2 ev hev).trans him

theorem traceInv_markupStep (mkO : List Char → Nat → MarkupOutcome)
    (compName : List Char) (key calls : Nat) (isRegen : Bool) (st : GenState)
    (h : traceInv st) :
    traceInv (resState (markupStep mkO compName key calls isRegen st)) := by
  obtain ⟨htr, him⟩ := markupStep_spec mkO compName key calls isRegen st
  obtain ⟨h1, h2⟩ := h
  rw [List.forall_iff_forall_mem] at h2
  constructor
  · rw [htr, List.pairwise_append]
    refine ⟨h1, List.pairwise_singleton _ _, ?_⟩
    intro a ha b hb
    rw [List.mem_singleton] at hb
    subst hb
    exact h2 a ha
  · rw [htr, him, List.forall_iff_forall_mem]
    intro ev hev
    rcases List.mem_append.mp hev with hm | hm
    · exact h2 ev hm
    · rw [List.mem_singleton] at hm
      subst hm
      exact List.prefix_refl _

theorem traceInv_processComponent (imgO : List Char → Nat → ImgCall)
    (mkO : List Char → Nat → MarkupOutcome) (ts : List Char)
    (st : GenState) (comp : Component) (h : traceInv st) :
    traceInv (resState (processComponent imgO mkO ts st comp)) :=
  traceInv_markupStep mkO (comp.name.getD ("Unknown".data)) (orderKeyOf comp)
    (imageStep imgO ts st comp).2 false (imageStep imgO ts st comp).1
    (traceInv_imageStep imgO ts st comp h)

theorem traceInv_genAllGo (imgO : List Char → Nat → ImgCall)
    (mkO : List Char → Nat → MarkupOutcome) (ts : List Char) :
    ∀ (comps : List Component) (st : GenState), traceInv st →
      traceInv (resState (genAllGo imgO mkO ts comps st)) := by
  intro comps
  induction comps with
  | nil => intro st h; exact h
  | cons comp rest ih =>
    intro st h
    have hstep := traceInv_processComponent imgO mkO ts st comp h
    cases hpc : processComponent imgO mkO ts st comp with
    | error st' =>
      rw [hpc] at hstep
      simpa [genAllGo, hpc, resState] using hstep
    | ok st' =>
      rw [hpc] at hstep
      have hrec := ih st' (by simpa [resState] using hstep)
      simpa [genAllGo, hpc] using hrec

theorem traceInv_regenComponent (mkO : List Char → Nat → MarkupOutcome)
    (name : List Char) (sortedComps : List Component) (st : GenState)
    (h : traceInv st) :
    traceInv (resState (regenComponent mkO name sortedComps st)) := by
  unfold regenComponent
  by_cases hl : (dictLookup name st.components).isSome = true
  · rw [if_pos hl]; exact h
  · rw [if_neg hl]
    cases sortedComps.find? (fun c => c.name == some name) with
    | none => exact h
    | some comp => exact traceInv_markupStep _ _ _ _ _ _ h

/-- The final state of a pipeline run: it satisfies the invariant, its
trace is the returned trace, and the returned image list (when one is
returned) is its image list. -/
theorem generateAllComponents_final (imgO : List Char → Nat → ImgCall)
    (mkO : List Char → Nat → MarkupOutcome) (ts : List Char) (plan : PlanResult)
    (imageUrls : List (List Char)) (pool : KeyPool) :
    ∃ stf : GenState, traceInv stf ∧
      (generateAllComponents imgO mkO ts plan imageUrls pool).trace = stf.trace ∧
      ((generateAllComponents imgO mkO ts plan imageUrls pool).imagesOut = none ∨
        (generateAllComponents imgO mkO ts plan imageUrls pool).imagesOut
          = some stf.images) := by
  have h0 : traceInv ⟨[], imageUrls, pool, []⟩ := ⟨List.Pairwise.nil, trivial⟩
  have h1 := traceInv_genAllGo imgO mkO ts (sortedPlanComponents plan) _ h0
  unfold generateAllComponents
  cases hg : genAllGo imgO mkO ts (sortedPlanComponents plan)
      ⟨[], imageUrls, pool, []⟩ with
  | error st =>
    rw [hg] at h1
    simp only [resState] at h1
    exact ⟨st, h1, rfl, Or.inl rfl⟩
  | ok st =>
    rw [hg] at h1
    simp only [resState] at h1
    have h2 := traceInv_regenComponent mkO contactName (sortedPlanComponents plan) st h1
    cases hrc : regenComponent mkO contactName (sortedPlanComponents plan) st with
    | error st' =>
      rw [hrc] at h2
      simp only [resState] at h2
      exact ⟨st', h2, by simp [hrc], Or.inl (by simp [hrc])⟩
    | ok st' =>
      rw [hrc] at h2
      simp only [resState] at h2
      have h3 := traceInv_regenComponent mkO footerName (sortedPlanComponents plan) st' h2
      cases hrf : regenComponent mkO footerName (sortedPlanComponents plan) st' with
      | error st'' =>
        rw [hrf] at h3
        simp only [resState] at h3
        exact ⟨st'', h3, by simp [hrc, hrf], Or.inl (by simp [hrc, hrf])⟩
      | ok st'' =>
        rw [hrf] at h3
        simp only [resState] at h3
        exact ⟨st'', h3, by simp [hrc, hrf], Or.inr (by simp [hrc, hrf])⟩

instance : IsTotal Component (fun a b => orderKeyOf a ≤ orderKeyOf b) :=
  ⟨fun a b => Nat.le_total (orderKeyOf a) (orderKeyOf b)⟩

instance : IsTrans Component (fun a b => orderKeyOf a ≤ orderKeyOf b) :=
  ⟨fun _ _ _ h1 h2 => Nat.le_trans h1 h2⟩

theorem sortedPlanComponents_keys_sorted (plan : PlanResult) :
    ((sortedPlanComponents plan).map orderKeyOf).Sorted (· ≤ ·) := by
  rw [List.Sorted, List.pairwise_map]
  exact List.sorted_insertionSort _ _

/-- C9: within one pipeline run, the main-loop markup calls happen in
ascending slot order (the non-regeneration trace keys are sorted); the
image list is append-only, so each call's recorded context is a prefix
of every later call's context; and when the run returns its image list,
every call's context is a prefix of it — each component saw all images
accumulated up to its call. -/
theorem c9_slot_order_and_image_accumulation (imgO : List Char → Nat → ImgCall)
    (mkO : List Char → Nat → MarkupOutcome) (ts : List Char) (plan : PlanResult)
    (imageUrls : List (List Char)) (pool : KeyPool) :
    (((generateAllComponents imgO mkO ts plan imageUrls pool).trace.filter
        (fun ev => !ev.regen)).map MarkupEvent.orderKey).Sorted (· ≤ ·) ∧
    (generateAllComponents imgO mkO ts plan imageUrls pool).trace.Pairwise
      (fun a b => a.images <+: b.images) ∧
    (match (generateAllComponents imgO mkO ts plan imageUrls pool).imagesOut with
     | some im => (generateAllComponents imgO mkO ts plan imageUrls pool).trace.Forall
         (fun ev => ev.images <+: im)
     | none => True) := by
  obtain ⟨loopEvs, cEvs, fEvs, htr, hloop, hpre, hc, hf⟩ :=
    generateAllComponents_trace_decomp imgO mkO ts plan imageUrls pool
  obtain ⟨stf, ⟨hpair, hforall⟩, htr2, hout⟩ :=
    generateAllComponents_final imgO mkO ts plan imageUrls pool
  refine ⟨?_, ?_, ?_⟩
  · rw [htr, List.filter_append, List.filter_append]
    have hl1 : loopEvs.filter (fun ev => !ev.regen) = loopEvs := by
      rw [List.filter_eq_self]
      intro ev hev
      rw [hloop ev hev]
      rfl
    have hl2 : cEvs.filter (fun ev => !ev.regen) = [] := by
      rcases hc with h | ⟨ev, hev, _, hr⟩
      · rw [h]; rfl
      · rw [hev, List.filter_eq_nil_iff]
        intro e he
        rw [List.mem_singleton] at he
        rw [he, hr]
        simp
    have hl3 : fEvs.filter (fun ev => !ev.regen) = [] := by
      rcases hf with h | ⟨ev, hev, _, hr⟩
      · rw [h]; rfl
      · rw [hev, List.filter_eq_nil_iff]
        intro e he
        rw [List.mem_singleton] at he
        rw [he, hr]
        simp
    rw [hl1, hl2, hl3, List.append_nil, List.append_nil]
    exact List.Pairwise.sublist hpre.sublist (sortedPlanComponents_keys_sorted plan)
  · rw [htr2]; exact hpair
  · cases hio : (generateAllComponents imgO mkO ts plan imageUrls pool).imagesOut with
    | none => trivial
    | some im =>
      rcases hout with h | h
      · rw [hio] at h; exact absurd h (by simp)
      · rw [hio] at h
        have him : im = stf.images := Option.some.inj h
        rw [htr2, him]
        exact hforall

/-! ## C5: structural markers of the final document -/

theorem findSub_isSome {hay needle : List Char} (h : containsSub hay needle = true) :
    (findSub hay needle).isSome := by
  rw [findSub, List.find?_isSome]
  rcases List.any_eq_true.mp h with ⟨i, hi, hp⟩
  exact ⟨i, hi, hp⟩

theorem ensureDoctype_starts (s : List Char) :
    ("<!DOCTYPE".data).isPrefixOf (ensureDoctype s) = true := by
  unfold ensureDoctype
  by_cases h1 : ("<!DOCTYPE".data).isPrefixOf s = true
  · rw [if_pos h1]; exact h1
  · rw [if_neg h1]
    by_cases h2 : containsSub s ("<!DOCTYPE".data) = true
    · rw [if_pos h2]
      cases hf : findSub s ("<!DOCTYPE".data) with
      | none => exact absurd (findSub_isSome h2) (by simp [hf])
      | some i =>
        simp only [hf]
        have hf2 : (List.range (s.length + 1)).find?
            (fun j => ("<!DOCTYPE".data).isPrefixOf (s.drop j)) = some i := hf
        have hres := List.find?_some hf2
        simpa using hres
    · rw [if_neg h2]
      apply List.isPrefixOf_iff_prefix.mpr
      exact List.IsPrefix.trans (by decide) (List.prefix_append _ s)

theorem doctype_contains_of_start {m : List Char}
    (h : ("<!DOCTYPE".data).isPrefixOf m = true) :
    containsSub (lowerL m) ("<!doctype".data) = true := by
  have hp := List.isPrefixOf_iff_prefix.mp h
  have hlow : lowerL ("<!DOCTYPE".data) <+: lowerL m := List.IsPrefix.map lowerChar hp
  have heq : lowerL ("<!DOCTYPE".data) = "<!doctype".data := by decide
  rw [heq] at hlow
  exact containsSub_of_start hlow

theorem injectSpacing_contains (p : List Char)
    (h1 : p.head? = some '<') (h2 : '<' ∉ p.drop 1)
    (h3 : ¬ lowerL ("<style>".data) <+: p)
    (h4 : p <+: lowerL ("<style>".data) → p <+: lowerL ("<style>".data ++ spacingCss))
    {s : List Char} (hc : containsSub (lowerL s) p = true) :
    containsSub (lowerL (injectSpacing s)) p = true := by
  unfold injectSpacing
  split
  · split
    · exact replaceAll_contains_stable (by decide) (by decide) h1 h2 h3 h4 hc
    · exact hc
  · exact hc

theorem injectBootstrapCss_contains (p : List Char)
    (h1 : p.head? = some '<') (h2 : '<' ∉ p.drop 1)
    (hA : ¬ lowerL ("</head>".data) <+: p)
    (hA2 : p <+: lowerL ("</head>".data) → p <+: lowerL (bootstrapCssTag ++ "</head>".data))
    (hB : ¬ lowerL ("<head>".data) <+: p)
    (hB2 : p <+: lowerL ("<head>".data) → p <+: lowerL ("<head>\n".data ++ bootstrapCssTag))
    {g : List Char} (hc : containsSub (lowerL g) p = true) :
    containsSub (lowerL (injectBootstrapCss g)) p = true := by
  unfold injectBootstrapCss
  split
  · exact replaceAll_contains_stable (by decide) (by decide) h1 h2 hA hA2 hc
  · split
    · exact replaceAll_contains_stable (by decide) (by decide) h1 h2 hB hB2 hc
    · exact hc

theorem injectBootstrapJs_contains (p : List Char)
    (h1 : p.head? = some '<') (h2 : '<' ∉ p.drop 1)
    (hC : ¬ lowerL ("</body>".data) <+: p)
    (hC2 : p <+: lowerL ("</body>".data) → p <+: lowerL (bootstrapJsTag ++ "</body>".data))
    (hD : ¬ lowerL ("<body>".data) <+: p)
    (hD2 : p <+: lowerL ("<body>".data) → p <+: lowerL ("<body>\n".data ++ bootstrapJsTag))
    {g : List Char} (hc : containsSub (lowerL g) p = true) :
    containsSub (lowerL (injectBootstrapJs g)) p = true := by
  unfold injectBootstrapJs
  split
  · exact replaceAll_contains_stable (by decide) (by decide) h1 h2 hC hC2 hc
  · split
    · exact replaceAll_contains_stable (by decide) (by decide) h1 h2 hD hD2 hc
    · exact hc

theorem injectBootstrap_contains (p : List Char)
    (h1 : p.head? = some '<') (h2 : '<' ∉ p.drop 1)
    (hA : ¬ lowerL ("</head>".data) <+: p)
    (hA2 : p <+: lowerL ("</head>".data) → p <+: lowerL (bootstrapCssTag ++ "</head>".data))
    (hB : ¬ lowerL ("<head>".data) <+: p)
    (hB2 : p <+: lowerL ("<head>".data) → p <+: lowerL ("<head>\n".data ++ bootstrapCssTag))
    (hC : ¬ lowerL ("</body>".data) <+: p)
    (hC2 : p <+: lowerL ("</body>".data) → p <+: lowerL (bootstrapJsTag ++ "</body>".data))
    (hD : ¬ lowerL ("<body>".data) <+: p)
    (hD2 : p <+: lowerL ("<body>".data) → p <+: lowerL ("<body>\n".data ++ bootstrapJsTag))
    {g : List Char} (hc : containsSub (lowerL g) p = true) :
    containsSub (lowerL (injectBootstrap g)) p = true := by
  unfold injectBootstrap
  split
  · exact injectBootstrapJs_contains p h1 h2 hC hC2 hD hD2
      (injectBootstrapCss_contains p h1 h2 hA hA2 hB hB2 hc)
  · exact hc

/-- `containsSub_pyStrip` with decidable endpoint conditions. -/
theorem containsSub_pyStrip_tag (p : List Char)
    (hh : p.head?.all (fun a => !isPySpace a) = true)
    (hl : p.getLast?.all (fun a => !isPySpace a) = true)
    {s : List Char} (h : containsSub (lowerL s) p = true) :
    containsSub (lowerL (pyStrip s)) p = true := by
  apply containsSub_pyStrip p ?_ ?_ s h
  · intro a ha
    rw [ha] at hh
    simpa using hh
  · intro a ha
    rw [ha] at hl
    simpa using hl

/-- C5 as amended: every merge response that yields a successful run
produces a returned document containing case-insensitive matches for the
document type declaration and the `<html` and `<body` container markers;
the `<head` tag and the Bootstrap CSS reference are NOT guaranteed — a
document without lowercase head/body anchors skips the injection, and a
missing body marker aborts the run with an error instead of being
injected (see the counterexample). -/
theorem c5_markers_of_successful_run (content doc : List Char)
    (h : websiteCodeResult content = .ok doc) :
    containsSub (lowerL doc) ("<!doctype".data) = true ∧
    containsSub (lowerL doc) ("<html".data) = true ∧
    containsSub (lowerL doc) ("<body".data) = true := by
  unfold websiteCodeResult routeFinish at h
  split at h
  · exact absurd h (by simp)
  · split at h
    · exact absurd h (by simp)
    · rename_i hmark
      have hdoc : doc = pyStrip (injectBootstrap (combinePost content)) :=
        (Except.ok.inj h).symm
      simp only [Bool.or_eq_true, Bool.not_eq_true', not_or, Bool.not_eq_false] at hmark
      obtain ⟨hhtml, hbody⟩ := hmark
      have hdt : containsSub (lowerL (combinePost content)) ("<!doctype".data) = true := by
        unfold combinePost
        exact injectSpacing_contains _ (by decide) (by decide) (by decide) (by decide)
          (doctype_contains_of_start (ensureDoctype_starts _))
      rw [hdoc]
      refine ⟨?_, ?_, ?_⟩
      · exact containsSub_pyStrip_tag _ (by decide) (by decide)
          (injectBootstrap_contains _ (by decide) (by decide) (by decide) (by decide)
            (by decide) (by decide) (by decide) (by decide) (by decide) (by decide) hdt)
      · exact containsSub_pyStrip_tag _ (by decide) (by decide)
          (injectBootstrap_contains _ (by decide) (by decide) (by decide) (by decide)
            (by decide) (by decide) (by decide) (by decide) (by decide) (by decide) hhtml)
      · exact containsSub_pyStrip_tag _ (by decide) (by decide)
          (injectBootstrap_contains _ (by decide) (by decide) (by decide) (by decide)
            (by decide) (by decide) (by decide) (by decide) (by decide) (by decide) hbody)

def demoMergeResp : List Char :=
  "<HTML><BODY>".data ++ List.replicate 110 'x' ++ "</BODY></HTML>".data

def demoMergeDoc : List Char := "<!DOCTYPE html>\n".data ++ demoMergeResp

set_option maxRecDepth 100000 in
/-- C5 counterexample: a successful run whose merge response uses
uppercase tags and no head section returns a document with NO
case-insensitive `<head` marker and NO Bootstrap framework reference —
the claimed guarantee of every fixed structural marker fails. -/
theorem c5_counterexample :
    websiteCodeResult demoMergeResp = .ok demoMergeDoc ∧
    containsSub (lowerL demoMergeDoc) ("<head".data) = false ∧
    containsSub (lowerL demoMergeDoc) ("bootstrap".data) = false := by
  refine ⟨by decide, by decide, by decide⟩

set_option maxRecDepth 100000 in
/-- Witness for the amended C5 at the concrete successful run. -/
theorem c5_markers_witness :
    containsSub (lowerL demoMergeDoc) ("<!doctype".data) = true ∧
    containsSub (lowerL demoMergeDoc) ("<html".data) = true ∧
    containsSub (lowerL demoMergeDoc) ("<body".data) = true :=
  c5_markers_of_successful_run demoMergeResp demoMergeDoc (by decide)

end WpVerify
